import Mathlib

/-!
# go-json-rpc: parameter binding and value coercion

A shallow embedding of `jsonrpc.go`.  The Go code works by run-time reflection over
`interface{}` values; the embedding makes the dynamic value an explicit sum type and
the three ways a Go call can end (normal return, returned `error`, run-time panic)
an explicit result type.  Calls to `log.Println` only print and are left out.

Conventions of the model:
* source values are the dynamic types listed in `GoValue`; named types among the
  params are not modelled;
* the destinations of one call point to distinct variables, and a pointer among the
  params points to none of them, so the call is a function from the list of
  destinations before to the list of destinations after;
* machine integers are mathematical integers, narrowed where the program narrows;
  `int` is 64 bits wide;
* a float is its exact value; the conversions of the language are computed, the
  parsing and printing of `strconv` and `fmt` are parameters (`GoEnv`);
* the bytes of a request are given by what they parse to (`JsonText`) and a member
  value by what the decoder makes of it (`JsonValue`); of an error of `encoding/json`
  only its type is kept; `json.Marshal` is not modelled.
-/

namespace JsonRpcModel

/-- The `reflect.Kind` values the program can meet. -/
inductive Kind
  | Invalid | Bool | Int | Int32 | Int64 | Uint8 | Float32 | Float64
  | String | Slice | Map | Ptr | Interface
  deriving DecidableEq, Repr

/-- An IEEE-754 floating-point datum.  A finite value is carried by its exact
mathematical value; negative zero, the infinities and NaN are separate. -/
inductive GoFloat
  | finite (q : ℚ)
  | negZero
  | inf (negative : Bool)
  | nan
  deriving DecidableEq

/-- A dynamically typed Go value as held in an `interface{}`: what `encoding/json`
decodes into (`nil`, `bool`, `float64`, `string`, `[]interface{}`,
`map[string]interface{}`), the integer and 32-bit kinds the coercion switches name,
the plain `int`, which they do not name, and pointers, which `SliceUnPack` follows.
A `map` lists its entries in the order in which `reflect.Value.MapKeys` enumerates them.
`ptr target` is a non-nil pointer to a variable of the type of `target` that holds
`target`; `ptrIface content` is a non-nil pointer to a variable of type `interface{}`
that holds `content`; `nilPtr` is a nil pointer. -/
inductive GoValue
  | null
  | bool (b : Bool)
  | int (n : Int)
  | int32 (n : Int)
  | int64 (n : Int)
  | float32 (x : GoFloat)
  | float64 (x : GoFloat)
  | str (s : String)
  | slice (xs : List GoValue)
  | map (kvs : List (String × GoValue))
  | nilPtr
  | ptr (target : GoValue)
  | ptrIface (content : GoValue)

/-- The errors the program returns.  Each constructor is one `errors.New` site
of `jsonrpc.go` or one error of `strconv` or `encoding/json`. -/
inductive GoError
  | numSyntax (fn : String) (s : String)
  | numRange (fn : String) (s : String)
  | invalidConvertInt
  | invalidConvertString (k : Kind)
  | invalidConvertFloat (k : Kind)
  | invalidTypeWaitSlice (k : Kind)
  | invalidSizeSlice (nParams nVars : Nat)
  | invalidSizeMap (nParams nVars : Nat)
  | invalidChange
  | unknownTypeChange (k : Kind)
  | unknownParams (k : Kind)
  | jsonSyntax
  | unmarshalType
  deriving DecidableEq

/-- How a Go call that returns `(T, error)` ends: with a value and a nil error,
with a non-nil error, or with a run-time panic. -/
inductive Outcome (α : Type)
  | ok (a : α)
  | err (e : GoError)
  | panic
  deriving DecidableEq

/-- How a Go call that returns only `error` ends. -/
inductive Status
  | success
  | err (e : GoError)
  | panic
  deriving DecidableEq

/-- What the Go run time and library leave open or what no function of `jsonrpc.go`
decides: `strconv.ParseFloat(s, 64)`, `fmt.Sprintf("%f", x)`, and the
implementation-dependent result of converting a float that does not fit to `int64`. -/
structure GoEnv where
  parseFloat : String → Outcome GoFloat
  formatFloat : GoFloat → String
  floatToIntOverflow : GoFloat → Int

/-- `reflect.ValueOf(v).Kind()`. -/
def GoValue.kind : GoValue → Kind
  | .null => Kind.Invalid
  | .bool _ => Kind.Bool
  | .int _ => Kind.Int
  | .int32 _ => Kind.Int32
  | .int64 _ => Kind.Int64
  | .float32 _ => Kind.Float32
  | .float64 _ => Kind.Float64
  | .str _ => Kind.String
  | .slice _ => Kind.Slice
  | .map _ => Kind.Map
  | .nilPtr => Kind.Ptr
  | .ptr _ => Kind.Ptr
  | .ptrIface _ => Kind.Ptr

/-! ## Machine arithmetic -/

/-- `strconv.IntSize`, the width of `int` (a 64-bit platform). -/
def intSize : Nat := 64

/-- Two's-complement wrap of an integer to `w` bits (Go's integer narrowing conversion). -/
def wrapInt (w : Nat) (n : Int) : Int :=
  (n + 2 ^ (w - 1)) % 2 ^ w - 2 ^ (w - 1)

/-- Round a non-negative rational to the nearest natural number, ties to even. -/
def roundHalfEven (n d : Nat) : Nat :=
  let fl := n / d
  let r := n % d
  if 2 * r < d then fl
  else if d < 2 * r then fl + 1
  else if fl % 2 = 0 then fl else fl + 1

/-- The number of binary digits of `n`, by halving at most `fuel` times. -/
def bitLen : Nat → Nat → Nat
  | 0, _ => 0
  | fuel + 1, n => if n = 0 then 0 else bitLen fuel (n / 2) + 1

/-- The integer `e` with `2 ^ e ≤ n / d < 2 ^ (e + 1)`, for `n, d > 0`. -/
def floorLog2 (n d : Nat) : Int :=
  let ln := bitLen n n - 1
  let ld := bitLen d d - 1
  if d * 2 ^ ln ≤ n * 2 ^ ld then (ln : Int) - ld else (ln : Int) - ld - 1

/-- The rational `m * 2 ^ e`. -/
def dyadic (m : Int) (e : Int) : ℚ :=
  if 0 ≤ e then mkRat (m * 2 ^ e.toNat) 1 else mkRat m (2 ^ (-e).toNat)

/-- Round a rational to the binary floating-point format with `p` significand bits
and largest exponent `emax` (round to nearest, ties to even; gradual underflow;
overflow gives an infinity).  With `e` the exponent of the last significand bit and
`m` the rounded significand, the result `m * 2 ^ e` overflows when it reaches
`2 ^ (emax + 1)`. -/
def roundToFormat (p : Nat) (emax : Int) (q : ℚ) : GoFloat :=
  if q.num = 0 then GoFloat.finite 0
  else
    let neg := decide (q.num < 0)
    let n := q.num.natAbs
    let d := q.den
    let e := max (floorLog2 n d) (1 - emax) - ((p : Int) - 1)
    let m := if 0 ≤ e then roundHalfEven n (d * 2 ^ e.toNat)
             else roundHalfEven (n * 2 ^ (-e).toNat) d
    if emax + 1 - (p : Int) < e ∨ (e = emax + 1 - (p : Int) ∧ 2 ^ p ≤ m) then GoFloat.inf neg
    else if m = 0 then (if neg then GoFloat.negZero else GoFloat.finite 0)
    else GoFloat.finite (dyadic (if neg then -(m : Int) else (m : Int)) e)

/-- The conversion `float64(n)` of an integer. -/
def intToFloat64 (n : Int) : GoFloat :=
  roundToFormat 53 1023 (n : ℚ)

/-- The conversion `float32(x)` of a `float64`, widened back (what a `float32`
variable holds after `reflect.Value.SetFloat`). -/
def toFloat32 : GoFloat → GoFloat
  | .finite q => roundToFormat 24 127 q
  | x => x

/-- The conversion `int64(x)` of a `float64`: the fraction is discarded; when the
result does not fit, it is implementation-dependent. -/
def floatToInt64 (env : GoEnv) (x : GoFloat) : Int :=
  match x with
  | .finite q =>
    let t := Int.tdiv q.num (q.den : Int)
    if -(2 : Int) ^ 63 ≤ t ∧ t < (2 : Int) ^ 63 then t else env.floatToIntOverflow x
  | .negZero => 0
  | _ => env.floatToIntOverflow x

/-! ## The parts of `strconv` the program calls -/

/-- The digit loop of `strconv.ParseUint(s, 10, bitSize)` with `maxVal = 2 ^ bitSize - 1`:
a byte that is not a decimal digit is a syntax error, a value above `maxVal` a
range error, whichever the scan meets first. -/
def parseUintLoop (fn s : String) (maxVal : Nat) : List Char → Nat → Outcome Nat
  | [], n => Outcome.ok n
  | c :: cs, n =>
    if '0' ≤ c ∧ c ≤ '9' then
      let n1 := n * 10 + (c.toNat - '0'.toNat)
      if maxVal < n1 then Outcome.err (GoError.numRange fn s)
      else parseUintLoop fn s maxVal cs n1
    else Outcome.err (GoError.numSyntax fn s)

/-- `strconv.ParseUint(s, 10, 0)`. -/
def ParseUint (fn s0 : String) (cs : List Char) : Outcome Nat :=
  match cs with
  | [] => Outcome.err (GoError.numSyntax fn s0)
  | _ => parseUintLoop fn s0 (2 ^ intSize - 1) cs 0

/-- `strconv.Atoi(s)`, which is `ParseInt(s, 10, 0)` with the error renamed. -/
def Atoi (s : String) : Outcome Int :=
  match s.toList with
  | [] => Outcome.err (GoError.numSyntax "Atoi" s)
  | c :: cs =>
    let neg := decide (c = '-')
    let body := if c = '+' ∨ c = '-' then cs else c :: cs
    match ParseUint "Atoi" s body with
    | Outcome.ok un =>
      let cutoff := 2 ^ (intSize - 1)
      if ¬ neg ∧ cutoff ≤ un then Outcome.err (GoError.numRange "Atoi" s)
      else if neg ∧ cutoff < un then Outcome.err (GoError.numRange "Atoi" s)
      else Outcome.ok (if neg then -(un : Int) else (un : Int))
    | Outcome.err e => Outcome.err e
    | Outcome.panic => Outcome.panic

/-- `strconv.FormatInt(i, base)`: panics unless `2 ≤ base ≤ 36`. -/
def FormatInt (i : Int) (base : Nat) : Outcome String :=
  if base < 2 ∨ 36 < base then Outcome.panic
  else
    let ds := String.mk (Nat.toDigits base i.natAbs)
    Outcome.ok (if i < 0 then "-" ++ ds else ds)

/-! ## Value coercion -/

/-- `JsonRpc.ValueToInt(v)`.  The float and integer cases assert the concrete type
`float64` resp. `int64`; the assertion panics on the 32-bit kinds. -/
def ValueToInt (env : GoEnv) (v : GoValue) : Outcome Int :=
  match v with
  | .float64 x => Outcome.ok (floatToInt64 env x)
  | .float32 _ => Outcome.panic
  | .int64 n => Outcome.ok n
  | .int32 _ => Outcome.panic
  | .str s =>
    match Atoi s with
    | Outcome.ok n => Outcome.ok n
    | Outcome.err e => Outcome.err e
    | Outcome.panic => Outcome.panic
  | _ => Outcome.err GoError.invalidConvertInt

/-- `JsonRpc.ValueToString(v)`, where `v.Elem()` is the given dynamic value. -/
def ValueToString (env : GoEnv) (v : GoValue) : Outcome String :=
  match v with
  | .str s => Outcome.ok s
  | .int32 n => FormatInt n 64
  | .int64 n => FormatInt n 64
  | .float64 x => Outcome.ok (env.formatFloat x)
  | .float32 x => Outcome.ok (env.formatFloat x)
  | _ => Outcome.err (GoError.invalidConvertString v.kind)

/-- `JsonRpc.ValueToFloat(v)`, where `v.Elem()` is the given dynamic value. -/
def ValueToFloat (env : GoEnv) (v : GoValue) : Outcome GoFloat :=
  match v with
  | .str s => env.parseFloat s
  | .int32 n => Outcome.ok (intToFloat64 n)
  | .int64 n => Outcome.ok (intToFloat64 n)
  | .float64 x => Outcome.ok x
  | .float32 x => Outcome.ok x
  | _ => Outcome.err (GoError.invalidConvertFloat v.kind)

/-! ## The envelope types -/

/-- The struct `JsonRpcMethod`.  `Params` and `Id` are `interface{}` fields. -/
structure JsonRpcMethod where
  Jsonrpc : String
  Method : String
  Params : GoValue
  Id : GoValue

/-- The struct `JsonRpcErrorCode` (`Code` is an `int16`). -/
structure JsonRpcErrorCode where
  Code : Int
  Message : String

/-- The struct `JsonRpcError`; `Error` is a pointer and may be nil. -/
structure JsonRpcError where
  Jsonrpc : String
  Error : Option JsonRpcErrorCode
  Id : GoValue

/-- The struct `JsonRpc`. -/
structure JsonRpc where
  method : JsonRpcMethod
  rpcError : JsonRpcError

/-- The struct `JsonRpcResult`. -/
structure JsonRpcResult where
  Jsonrpc : String
  Result : GoValue
  Id : GoValue

/-- `JsonRpc.SetParams(params)`. -/
def SetParams (j : JsonRpc) (params : GoValue) : JsonRpc :=
  { j with method := { j.method with Params := params } }

/-- `JsonRpc.NewResult(result)`. -/
def NewResult (j : JsonRpc) (result : GoValue) : JsonRpcResult :=
  { Jsonrpc := "2.0", Result := result, Id := j.method.Id }

/-- `JsonRpc.IsNotify()`: the branch taken when `j.method.Id != nil` returns `true`. -/
def IsNotify (j : JsonRpc) : Bool :=
  match j.method.Id with
  | .null => false
  | _ => true

/-- `JsonRpc.NewError(code, message)`. -/
def NewError (j : JsonRpc) (code : Int) (message : String) : JsonRpcError :=
  { Jsonrpc := "2.0", Error := some { Code := code, Message := message }, Id := j.method.Id }

/-- `JsonRpc.NewNilError()`. -/
def NewNilError (j : JsonRpc) : JsonRpcError :=
  { Jsonrpc := "2.0", Error := none, Id := j.method.Id }

/-! ## Parameter binding -/

/-- One argument of the variadic `vars ...interface{}`: a non-nil pointer to a caller
variable (given by the variable's current content, whose kind is the variable's
type; `null` stands for a variable of interface type), a nil pointer, or a value
that is no pointer.  Distinct arguments point to distinct variables. -/
inductive Dest
  | ptr (cur : GoValue)
  | nilPtr
  | val (v : GoValue)

/-- `Kind()` of the variable a pointer argument points to. -/
def pointeeKind : GoValue → Kind
  | .null => Kind.Interface
  | v => v.kind

/-- A `reflect.Value` on the source side: the zero Value, a Value of kind `Interface`
holding a dynamic value (an element of a `[]interface{}`, the result of `MapIndex`, a
variable of type `interface{}`), or a Value of the concrete kind of the value it holds. -/
inductive RValue
  | invalid
  | iface (v : GoValue)
  | conc (v : GoValue)

/-- `reflect.Value.Kind()`. -/
def RValue.kind : RValue → Kind
  | .invalid => Kind.Invalid
  | .iface _ => Kind.Interface
  | .conc v => v.kind

/-- `reflect.Value.Elem()`: what an interface holds (the zero Value for nil), or the
variable a pointer points to (the zero Value for a nil pointer); `none` where it
panics, which is on every other kind. -/
def RValue.elem : RValue → Option RValue
  | .iface .null => some RValue.invalid
  | .iface v => some (RValue.conc v)
  | .conc (.ptr t) => some (RValue.conc t)
  | .conc (.ptrIface c) => some (RValue.iface c)
  | .conc .nilPtr => some RValue.invalid
  | _ => none

/-- `reflect.Value.Interface()`: the value as an `interface{}`; `none` where it panics,
which is on the zero Value. -/
def RValue.toInterface : RValue → Option GoValue
  | .invalid => none
  | .iface v => some v
  | .conc v => some v

/-- The source `sItem` of one iteration of `SliceUnPack` (lines 188-193): the element
`vSliceItems.Index(i)`, replaced by `sItem.Elem().Elem()` when `sItem.Elem()` is a
pointer.  `none` where an `Elem()` panics. -/
def sliceSource (s : GoValue) : Option RValue :=
  match (RValue.iface s).elem with
  | none => none
  | some e => if e.kind = Kind.Ptr then e.elem else some (RValue.iface s)

/-- `JsonRpc.ValueToString(v)` for an arbitrary `reflect.Value`: `v.Elem()` may panic,
and its kind decides the branch. -/
def ValueToStringV (env : GoEnv) (v : RValue) : Outcome String :=
  match v.elem with
  | none => Outcome.panic
  | some (RValue.conc x) => ValueToString env x
  | some (RValue.iface _) => Outcome.err (GoError.invalidConvertString Kind.Interface)
  | some RValue.invalid => Outcome.err (GoError.invalidConvertString Kind.Invalid)

/-- `JsonRpc.ValueToFloat(v)` for an arbitrary `reflect.Value`. -/
def ValueToFloatV (env : GoEnv) (v : RValue) : Outcome GoFloat :=
  match v.elem with
  | none => Outcome.panic
  | some (RValue.conc x) => ValueToFloat env x
  | some (RValue.iface _) => Outcome.err (GoError.invalidConvertFloat Kind.Interface)
  | some RValue.invalid => Outcome.err (GoError.invalidConvertFloat Kind.Invalid)

/-- The call `j.ValueToInt(sItem.Interface())`. -/
def ValueToIntV (env : GoEnv) (v : RValue) : Outcome Int :=
  match v.toInterface with
  | none => Outcome.panic
  | some x => ValueToInt env x

/-- The `switch vItem.Kind()` of `SliceUnPack` for the source `sItem`: coerce it to the
kind of the variable holding `cur` and store it with `SetString`, `SetInt` or
`SetFloat`; the result is the variable's new content.  `SetInt` on an `int32` and
`SetFloat` on a `float32` narrow the value. -/
def assignV (env : GoEnv) (src : RValue) (cur : GoValue) : Outcome GoValue :=
  match cur with
  | .str _ =>
    match ValueToStringV env src with
    | Outcome.ok r => Outcome.ok (GoValue.str r)
    | Outcome.err e => Outcome.err e
    | Outcome.panic => Outcome.panic
  | .int32 _ =>
    match ValueToIntV env src with
    | Outcome.ok i => Outcome.ok (GoValue.int32 (wrapInt 32 i))
    | Outcome.err e => Outcome.err e
    | Outcome.panic => Outcome.panic
  | .int64 _ =>
    match ValueToIntV env src with
    | Outcome.ok i => Outcome.ok (GoValue.int64 i)
    | Outcome.err e => Outcome.err e
    | Outcome.panic => Outcome.panic
  | .float64 _ =>
    match ValueToFloatV env src with
    | Outcome.ok f => Outcome.ok (GoValue.float64 f)
    | Outcome.err e => Outcome.err e
    | Outcome.panic => Outcome.panic
  | .float32 _ =>
    match ValueToFloatV env src with
    | Outcome.ok f => Outcome.ok (GoValue.float32 (toFloat32 f))
    | Outcome.err e => Outcome.err e
    | Outcome.panic => Outcome.panic
  | v => Outcome.err (GoError.unknownTypeChange (pointeeKind v))

/-- The `switch evi.Kind()` of `MapUnPack`, whose source `vMapIndex` is the element of
the mapping as it is, holding `s`: coerce it to the kind of the variable holding `cur`
and store it with `SetString`, `SetInt` or `SetFloat`; the result is the variable's new
content.  `SetInt` on an `int32` and `SetFloat` on a `float32` narrow the value. -/
def assign (env : GoEnv) (s : GoValue) (cur : GoValue) : Outcome GoValue :=
  match cur with
  | .str _ =>
    match ValueToString env s with
    | Outcome.ok r => Outcome.ok (GoValue.str r)
    | Outcome.err e => Outcome.err e
    | Outcome.panic => Outcome.panic
  | .int32 _ =>
    match ValueToInt env s with
    | Outcome.ok i => Outcome.ok (GoValue.int32 (wrapInt 32 i))
    | Outcome.err e => Outcome.err e
    | Outcome.panic => Outcome.panic
  | .int64 _ =>
    match ValueToInt env s with
    | Outcome.ok i => Outcome.ok (GoValue.int64 i)
    | Outcome.err e => Outcome.err e
    | Outcome.panic => Outcome.panic
  | .float64 _ =>
    match ValueToFloat env s with
    | Outcome.ok f => Outcome.ok (GoValue.float64 f)
    | Outcome.err e => Outcome.err e
    | Outcome.panic => Outcome.panic
  | .float32 _ =>
    match ValueToFloat env s with
    | Outcome.ok f => Outcome.ok (GoValue.float32 (toFloat32 f))
    | Outcome.err e => Outcome.err e
    | Outcome.panic => Outcome.panic
  | v => Outcome.err (GoError.unknownTypeChange (pointeeKind v))

/-- One iteration of the loop of `SliceUnPack`.  The source is the element, or what it
points to.  A pointer argument is dereferenced.  A nil pointer argument dereferences
to the zero `reflect.Value`, which cannot be set, and building the error message calls
`Elem()` on it, which panics.  An argument that is no pointer stays the (settable)
interface element of `vars`, of kind `Interface`. -/
def sliceStep (env : GoEnv) (s : GoValue) (d : Dest) : Outcome Dest :=
  match sliceSource s with
  | none => Outcome.panic
  | some src =>
    match d with
    | .nilPtr => Outcome.panic
    | .val _ => Outcome.err (GoError.unknownTypeChange Kind.Interface)
    | .ptr cur =>
      match assignV env src cur with
      | Outcome.ok v => Outcome.ok (Dest.ptr v)
      | Outcome.err e => Outcome.err e
      | Outcome.panic => Outcome.panic

/-- The index loops of `SliceUnPack` (`for i := 0; i < vSliceItems.Len(); i++`) and
`MapUnPack` (`for vIndex, vKey := range vMapKeys`), with the loop body as `step`:
source `i` is bound to destination `i`, and the first iteration that does not end
normally ends the call.  The result is the final state of the destinations and how
the call ends.  Indexing `vars` past its end panics. -/
def unpackLoop {α : Type} (step : α → Dest → Outcome Dest) :
    List α → List Dest → List Dest × Status
  | [], ds => (ds, Status.success)
  | _ :: _, [] => ([], Status.panic)
  | s :: ss, d :: ds =>
    match step s d with
    | Outcome.ok d1 => (d1 :: (unpackLoop step ss ds).1, (unpackLoop step ss ds).2)
    | Outcome.err e => (d :: ds, Status.err e)
    | Outcome.panic => (d :: ds, Status.panic)

/-- `reflect.Value.Len()`: `none` where it panics. -/
def reflectLen : GoValue → Option Nat
  | .slice xs => some xs.length
  | .map kvs => some kvs.length
  | .str s => some s.utf8ByteSize
  | _ => none

/-- `reflect.ValueOf(vars).Kind()`: `vars` is a `[]interface{}`. -/
def varsKind : Kind := Kind.Slice

/-- `JsonRpc.SliceUnPack(vars...)`: the final state of the destinations and how the
call ends.  On params that are no slice, `Index` (map) or the `Elem()` of the
indexed byte (string) panics in the first iteration. -/
def SliceUnPack (env : GoEnv) (j : JsonRpc) (vars : List Dest) : List Dest × Status :=
  if j.method.Params.kind ≠ Kind.Slice ∧ varsKind ≠ Kind.Slice then
    (vars, Status.err (GoError.invalidTypeWaitSlice varsKind))
  else
    match reflectLen j.method.Params with
    | none => (vars, Status.panic)
    | some n =>
      if n ≠ vars.length then (vars, Status.err (GoError.invalidSizeSlice n vars.length))
      else
        match j.method.Params with
        | .slice xs => unpackLoop (sliceStep env) xs vars
        | _ => if n = 0 then (vars, Status.success) else (vars, Status.panic)

/-- `reflect.Value.MapKeys()`: the keys in the enumeration order of the mapping. -/
def MapKeys (kvs : List (String × GoValue)) : List String :=
  kvs.map Prod.fst

/-- `reflect.Value.MapIndex(key)`: `none` is the zero `reflect.Value` of a missing key. -/
def MapIndex (kvs : List (String × GoValue)) (k : String) : Option GoValue :=
  kvs.lookup k

/-- One iteration of the loop of `MapUnPack`.  `evi` is the dereferenced pointer; a
nil pointer and an argument that is no pointer cannot be set. -/
def mapStep (env : GoEnv) (kvs : List (String × GoValue)) (k : String) (d : Dest) :
    Outcome Dest :=
  match d with
  | .nilPtr => Outcome.err GoError.invalidChange
  | .val _ => Outcome.err GoError.invalidChange
  | .ptr cur =>
    match MapIndex kvs k with
    | none => Outcome.panic
    | some s =>
      match assign env s cur with
      | Outcome.ok v => Outcome.ok (Dest.ptr v)
      | Outcome.err e => Outcome.err e
      | Outcome.panic => Outcome.panic

/-- One iteration of the loop of `MapUnPack` for a key whose value in the mapping is `s`. -/
def mapStepOn (env : GoEnv) (s : GoValue) (d : Dest) : Outcome Dest :=
  match d with
  | .nilPtr => Outcome.err GoError.invalidChange
  | .val _ => Outcome.err GoError.invalidChange
  | .ptr cur =>
    match assign env s cur with
    | Outcome.ok v => Outcome.ok (Dest.ptr v)
    | Outcome.err e => Outcome.err e
    | Outcome.panic => Outcome.panic

/-- `JsonRpc.MapUnPack(vars...)`.  On params that are no map, `MapKeys` panics. -/
def MapUnPack (env : GoEnv) (j : JsonRpc) (vars : List Dest) : List Dest × Status :=
  if j.method.Params.kind ≠ Kind.Map ∧ varsKind ≠ Kind.Slice then
    (vars, Status.err (GoError.invalidTypeWaitSlice varsKind))
  else
    match reflectLen j.method.Params with
    | none => (vars, Status.panic)
    | some n =>
      if vars.length ≠ n then (vars, Status.err (GoError.invalidSizeMap n vars.length))
      else
        match j.method.Params with
        | .map kvs => unpackLoop (mapStep env kvs) (MapKeys kvs) vars
        | _ => (vars, Status.panic)

/-- `JsonRpc.GetValues(v...)`. -/
def GetValues (env : GoEnv) (j : JsonRpc) (v : List Dest) : List Dest × Status :=
  match j.method.Params.kind with
  | Kind.Slice => SliceUnPack env j v
  | Kind.Map => MapUnPack env j v
  | k => (v, Status.err (GoError.unknownParams k))


/-! ## Vocabulary of the binding claims -/

/-- The coerced value of the source `s` for the destination variable `c`:
`ValueToString`, `ValueToInt` or `ValueToFloat` of `s`, chosen by the kind of `c`,
as a value of that kind before it is stored.  A variable of another kind has none. -/
def coerced (env : GoEnv) (s c : GoValue) : Outcome GoValue :=
  match c with
  | .str _ =>
    match ValueToString env s with
    | Outcome.ok r => Outcome.ok (GoValue.str r)
    | Outcome.err e => Outcome.err e
    | Outcome.panic => Outcome.panic
  | .int32 _ =>
    match ValueToInt env s with
    | Outcome.ok i => Outcome.ok (GoValue.int32 i)
    | Outcome.err e => Outcome.err e
    | Outcome.panic => Outcome.panic
  | .int64 _ =>
    match ValueToInt env s with
    | Outcome.ok i => Outcome.ok (GoValue.int64 i)
    | Outcome.err e => Outcome.err e
    | Outcome.panic => Outcome.panic
  | .float64 _ =>
    match ValueToFloat env s with
    | Outcome.ok f => Outcome.ok (GoValue.float64 f)
    | Outcome.err e => Outcome.err e
    | Outcome.panic => Outcome.panic
  | .float32 _ =>
    match ValueToFloat env s with
    | Outcome.ok f => Outcome.ok (GoValue.float32 f)
    | Outcome.err e => Outcome.err e
    | Outcome.panic => Outcome.panic
  | v => Outcome.err (GoError.unknownTypeChange (pointeeKind v))

/-- The coerced value of the source `src`, a `reflect.Value`, for the destination
variable `c`: `ValueToString(src)`, `ValueToInt(src.Interface())` or
`ValueToFloat(src)`, chosen by the kind of `c`, as a value of that kind before it is
stored.  A variable of another kind has none. -/
def coercedV (env : GoEnv) (src : RValue) (c : GoValue) : Outcome GoValue :=
  match c with
  | .str _ =>
    match ValueToStringV env src with
    | Outcome.ok r => Outcome.ok (GoValue.str r)
    | Outcome.err e => Outcome.err e
    | Outcome.panic => Outcome.panic
  | .int32 _ =>
    match ValueToIntV env src with
    | Outcome.ok i => Outcome.ok (GoValue.int32 i)
    | Outcome.err e => Outcome.err e
    | Outcome.panic => Outcome.panic
  | .int64 _ =>
    match ValueToIntV env src with
    | Outcome.ok i => Outcome.ok (GoValue.int64 i)
    | Outcome.err e => Outcome.err e
    | Outcome.panic => Outcome.panic
  | .float64 _ =>
    match ValueToFloatV env src with
    | Outcome.ok f => Outcome.ok (GoValue.float64 f)
    | Outcome.err e => Outcome.err e
    | Outcome.panic => Outcome.panic
  | .float32 _ =>
    match ValueToFloatV env src with
    | Outcome.ok f => Outcome.ok (GoValue.float32 f)
    | Outcome.err e => Outcome.err e
    | Outcome.panic => Outcome.panic
  | v => Outcome.err (GoError.unknownTypeChange (pointeeKind v))

/-- The `reflect.Value` under which `GetValues` hands the source `s` to the coercers:
`SliceUnPack` hands over the element, or what it points to; `MapUnPack` hands over the
element as it is. -/
def presented (j : JsonRpc) (s : GoValue) : Option RValue :=
  match j.method.Params with
  | .slice _ => sliceSource s
  | _ => some (RValue.iface s)

/-- What a variable holds once a coerced value is stored in it: an `int32` variable
keeps the low 32 bits, a `float32` variable the nearest `float32`; every other
value is stored as it is. -/
def narrow : GoValue → GoValue
  | .int32 n => GoValue.int32 (wrapInt 32 n)
  | .float32 x => GoValue.float32 (toFloat32 x)
  | v => v

/-- A destination variable of a kind the binder knows: string, integer or float. -/
def knownKind : GoValue → Bool
  | .str _ => true
  | .int32 _ => true
  | .int64 _ => true
  | .float32 _ => true
  | .float64 _ => true
  | _ => false

/-- A source value that is a boolean, null, a sequence or a mapping. -/
def nonScalar : GoValue → Bool
  | .null => true
  | .bool _ => true
  | .slice _ => true
  | .map _ => true
  | _ => false

/-- The values of a request's params in binding order: the elements of a sequence,
or the values `mapping[k_0], mapping[k_1], ..` of a mapping enumerated as `k_0, k_1, ..`. -/
def BoundInOrder (j : JsonRpc) (srcs : List GoValue) : Prop :=
  j.method.Params = GoValue.slice srcs ∨
    ∃ kvs, j.method.Params = GoValue.map kvs ∧
      (MapKeys kvs).map (MapIndex kvs) = srcs.map some

/-- A decimal digit: a character from `0` to `9`. -/
def IsDecimalDigit (c : Char) : Prop := '0' ≤ c ∧ c ≤ '9'

/-- The number a string of decimal digits denotes, most significant digit first. -/
def decimalValue (cs : List Char) : Nat :=
  Nat.ofDigits 10 (cs.reverse.map (fun c => c.toNat - '0'.toNat))

/-- The string `s` is a well-formed base-10 integer literal denoting `n`: an optional
sign `+` or `-` followed by one or more decimal digits. -/
def IsIntLiteral (s : String) (n : Int) : Prop :=
  ∃ sign ds : List Char, s.toList = sign ++ ds ∧
    (sign = [] ∨ sign = ['+'] ∨ sign = ['-']) ∧
    ds ≠ [] ∧ (∀ c ∈ ds, IsDecimalDigit c) ∧
    n = if sign = ['-'] then -(decimalValue ds : Int) else (decimalValue ds : Int)

/-- Truncation of a rational toward zero: the integer of largest magnitude that does
not exceed `|q|`, with the sign of `q`. -/
def truncTowardZero (q : ℚ) : Int :=
  if 0 ≤ q then ⌊q⌋ else -⌊-q⌋

/-- The mathematical value of a float: negative zero has the value 0; an infinity and
NaN have none. -/
def GoFloat.value : GoFloat → Option ℚ
  | .finite q => some q
  | .negZero => some 0
  | .inf _ => none
  | .nan => none

/-! ## Concrete inputs -/

/-- An environment for evaluating the model on concrete inputs.  An overflowing
float-to-integer conversion gives the amd64 result; `ParseFloat` and `%f` are fixed
arbitrarily, no evaluation below reaches them. -/
def sampleEnv : GoEnv where
  parseFloat := fun s => Outcome.err (GoError.numSyntax "ParseFloat" s)
  formatFloat := fun _ => ""
  floatToIntOverflow := fun _ => -(2 : Int) ^ 63

/-- A decoded request `{"jsonrpc": "2.0", "method": "subtract", "params": p, "id": 1}`
(the decoder stores every JSON number as a `float64`). -/
def subtractRequest (p : GoValue) : JsonRpc where
  method := { Jsonrpc := "2.0", Method := "subtract", Params := p,
              Id := GoValue.float64 (GoFloat.finite 1) }
  rpcError := { Jsonrpc := "", Error := none, Id := GoValue.null }

/-- The decoded notification `{"jsonrpc": "2.0", "method": "update", "params": [1,2,3,4,5]}`:
the id is absent and stays nil. -/
def updateNotification : JsonRpc where
  method := { Jsonrpc := "2.0", Method := "update",
              Params := GoValue.slice [GoValue.float64 (GoFloat.finite 1),
                GoValue.float64 (GoFloat.finite 2), GoValue.float64 (GoFloat.finite 3),
                GoValue.float64 (GoFloat.finite 4), GoValue.float64 (GoFloat.finite 5)],
              Id := GoValue.null }
  rpcError := { Jsonrpc := "", Error := none, Id := GoValue.null }

/-- A decoded request `{"jsonrpc": "2.0", "method": "foobar", "id": id}`. -/
def foobarRequest (id : GoValue) : JsonRpc where
  method := { Jsonrpc := "2.0", Method := "foobar", Params := GoValue.null, Id := id }
  rpcError := { Jsonrpc := "", Error := none, Id := GoValue.null }

/-! ## Envelopes built without a request -/

/-- The constant `ParseError`. -/
def ParseError : Int := -32700

/-- The constant `InvalidRequest`. -/
def InvalidRequest : Int := -32600

/-- The constant `MethodNotFound`. -/
def MethodNotFound : Int := -32601

/-- The constant `InvalidParams`. -/
def InvalidParams : Int := -32602

/-- The constant `InternalError`. -/
def InternalError : Int := -32603

/-- The constant `ServerError`. -/
def ServerError : Int := -32000

/-- The zero value `var jrpc JsonRpc`: empty strings, nil interfaces, nil pointer. -/
def zeroJsonRpc : JsonRpc where
  method := { Jsonrpc := "", Method := "", Params := GoValue.null, Id := GoValue.null }
  rpcError := { Jsonrpc := "", Error := none, Id := GoValue.null }

/-- `JsonRpcErrorBuild(code, message)`: the envelope `jrpc.NewError(code, message)` of a
fresh `JsonRpc`, which the function hands to `json.Marshal`. -/
def JsonRpcErrorBuild (code : Int) (message : String) : JsonRpcError :=
  NewError zeroJsonRpc code message

/-! ## Error values -/

/-- The JSON-RPC code an error value carries.  Every error of the program is built by
`errors.New`, whose value holds a text and nothing else, or comes from `strconv` or
`encoding/json`, whose error types hold no code either: the constants `InvalidParams`,
`InternalError` and the others are not attached to any of them. -/
def GoError.code : GoError → Option Int
  | .numSyntax _ _ => none
  | .numRange _ _ => none
  | .invalidConvertInt => none
  | .invalidConvertString _ => none
  | .invalidConvertFloat _ => none
  | .invalidTypeWaitSlice _ => none
  | .invalidSizeSlice _ _ => none
  | .invalidSizeMap _ _ => none
  | .invalidChange => none
  | .unknownTypeChange _ => none
  | .unknownParams _ => none
  | .jsonSyntax => none
  | .unmarshalType => none

/-- The error of the `default` branch of the destination switch, whose text starts with
"Unknown type change variables". -/
def GoError.isUnknownKind : GoError → Bool
  | .unknownTypeChange _ => true
  | _ => false

/-- The errors of `strconv.ParseFloat` are `NumError`s, as those of `Atoi`. -/
def ParseFloatErrors (env : GoEnv) : Prop :=
  ∀ s e, env.parseFloat s = Outcome.err e →
    e = GoError.numSyntax "ParseFloat" s ∨ e = GoError.numRange "ParseFloat" s

/-! ## Decoding a request -/

/-- A JSON value as `encoding/json` decodes it into an `interface{}`.  `fits v`: every
number literal in it fits a `float64`, and the decoder yields `v`.  `overflow stored`:
a number literal in it does not fit a `float64` (as `1e400`), so that `convertNumber`
fails with an `UnmarshalTypeError`; when the value is that number itself nothing is
stored (`none`), when it is an array or an object around it the decoder still yields
the value `stored`, with nil in the place of such a number. -/
inductive JsonValue
  | fits (v : GoValue)
  | overflow (stored : Option GoValue)

/-- The bytes handed to `json.Unmarshal`, by what they parse to: no JSON text at all, a
JSON object with its members in the order written, or another JSON value. -/
inductive JsonText
  | malformed
  | object (members : List (String × JsonValue))
  | other (v : JsonValue)

/-- The fields of `JsonRpcMethod`, named by their `json` tags. -/
inductive Field
  | jsonrpc | method | params | id
  deriving DecidableEq

/-- Case folding of `encoding/json` as far as it can reach an ASCII lower-case letter:
an upper-case ASCII letter, the long s (U+017F) and the Kelvin sign (U+212A). -/
def foldRune (c : Char) : Char :=
  if 'A' ≤ c ∧ c ≤ 'Z' then Char.ofNat (c.toNat + 32)
  else if c = Char.ofNat 0x17F then 's'
  else if c = Char.ofNat 0x212A then 'k'
  else c

/-- The field a member key addresses: the decoder takes the field whose tag equals the
key, or else equals it under case folding; a key that matches no tag is skipped. -/
def fieldOf (key : String) : Option Field :=
  let f := String.mk (key.toList.map foldRune)
  if f = "jsonrpc" then some Field.jsonrpc
  else if f = "method" then some Field.method
  else if f = "params" then some Field.params
  else if f = "id" then some Field.id
  else none

/-- Storing a member value into a `string` field (`Jsonrpc`, `Method`): a JSON string
is stored, `null` leaves the field as it is, any other value is a type error and
leaves it too. -/
def storeString (old : String) (v : JsonValue) : String × Option GoError :=
  match v with
  | .fits (.str s) => (s, none)
  | .fits .null => (old, none)
  | _ => (old, some GoError.unmarshalType)

/-- Storing a member value into an `interface{}` field (`Params`, `Id`): the decoded
value is stored; a number that does not fit a `float64` is a type error. -/
def storeInterface (old : GoValue) (v : JsonValue) : GoValue × Option GoError :=
  match v with
  | .fits x => (x, none)
  | .overflow none => (old, some GoError.unmarshalType)
  | .overflow (some x) => (x, some GoError.unmarshalType)

/-- Decoding one member into the struct.  The decoder goes on after a type error and
reports the first one at the end. -/
def decodeMember (st : JsonRpcMethod × Option GoError) (kv : String × JsonValue) :
    JsonRpcMethod × Option GoError :=
  match fieldOf kv.1 with
  | none => st
  | some Field.jsonrpc =>
    let r := storeString st.1.Jsonrpc kv.2
    ({ st.1 with Jsonrpc := r.1 }, st.2 <|> r.2)
  | some Field.method =>
    let r := storeString st.1.Method kv.2
    ({ st.1 with Method := r.1 }, st.2 <|> r.2)
  | some Field.params =>
    let r := storeInterface st.1.Params kv.2
    ({ st.1 with Params := r.1 }, st.2 <|> r.2)
  | some Field.id =>
    let r := storeInterface st.1.Id kv.2
    ({ st.1 with Id := r.1 }, st.2 <|> r.2)

/-- `json.Unmarshal(data, &m)` for a `JsonRpcMethod`: the struct afterwards and the
error, if any.  Bytes that are no JSON are rejected before anything is stored; `null`
stores nothing; a JSON value that is neither an object nor `null` is a type error. -/
def Unmarshal (m : JsonRpcMethod) (data : JsonText) : JsonRpcMethod × Option GoError :=
  match data with
  | .malformed => (m, some GoError.jsonSyntax)
  | .object members => members.foldl decodeMember (m, none)
  | .other (.fits .null) => (m, none)
  | .other _ => (m, some GoError.unmarshalType)

/-- `JsonRpcPrase(data)`. -/
def JsonRpcPrase (data : JsonText) : Outcome JsonRpc :=
  match (Unmarshal zeroJsonRpc.method data).2 with
  | some e => Outcome.err e
  | none => Outcome.ok { zeroJsonRpc with method := (Unmarshal zeroJsonRpc.method data).1 }

/-- `JsonRpc.Request(body)`: the receiver afterwards and the returned error. -/
def Request (j : JsonRpc) (body : JsonText) : JsonRpc × Status :=
  ({ j with method := (Unmarshal j.method body).1 },
    match (Unmarshal j.method body).2 with
    | some e => Status.err e
    | none => Status.success)

/-- A member value that a `string` field accepts: a JSON string or `null`. -/
def stringOrNull : JsonValue → Bool
  | .fits (.str _) => true
  | .fits .null => true
  | _ => false

/-- A member that addresses the field `jsonrpc` or `method` with a value that is
neither a string nor `null`. -/
def badMember (kv : String × JsonValue) : Bool :=
  (fieldOf kv.1 == some Field.jsonrpc || fieldOf kv.1 == some Field.method) &&
    !stringOrNull kv.2

/-! ## The binding loop -/

theorem unpackLoop_length {α : Type} (step : α → Dest → Outcome Dest) :
    ∀ (xs : List α) (ds : List Dest), xs.length = ds.length →
      (unpackLoop step xs ds).1.length = ds.length := by
  intro xs
  induction xs with
  | nil => intro ds _; simp [unpackLoop]
  | cons x xs ih =>
    intro ds h
    cases ds with
    | nil => simp at h
    | cons d ds =>
      simp only [List.length_cons, Nat.add_right_cancel_iff] at h
      simp only [unpackLoop]
      cases hs : step x d with
      | ok d1 => simp [ih ds h]
      | err e => simp
      | panic => simp

theorem unpackLoop_success {α : Type} (step : α → Dest → Outcome Dest) :
    ∀ (xs : List α) (ds : List Dest), xs.length = ds.length →
      (∀ (i : Nat) s d, xs[i]? = some s → ds[i]? = some d → ∃ d1, step s d = Outcome.ok d1) →
      (unpackLoop step xs ds).2 = Status.success := by
  intro xs
  induction xs with
  | nil => intro ds _ _; simp [unpackLoop]
  | cons x xs ih =>
    intro ds h hall
    cases ds with
    | nil => simp at h
    | cons d ds =>
      simp only [List.length_cons, Nat.add_right_cancel_iff] at h
      obtain ⟨d1, hd1⟩ := hall 0 x d (by simp) (by simp)
      simp only [unpackLoop, hd1]
      exact ih ds h (fun i s d0 hs hd => hall (i + 1) s d0 (by simpa using hs) (by simpa using hd))

theorem unpackLoop_written {α : Type} (step : α → Dest → Outcome Dest) :
    ∀ (xs : List α) (ds : List Dest) (k : Nat),
      (∀ (i : Nat) s d, i < k → xs[i]? = some s → ds[i]? = some d → ∃ d1, step s d = Outcome.ok d1) →
      ∀ (i : Nat) s d d1, i < k → xs[i]? = some s → ds[i]? = some d → step s d = Outcome.ok d1 →
        (unpackLoop step xs ds).1[i]? = some d1 := by
  intro xs
  induction xs with
  | nil => intro ds k _ i s d d1 _ hs; simp at hs
  | cons x xs ih =>
    intro ds k hall i s d d1 hik hs hd hstep
    cases ds with
    | nil => simp at hd
    | cons d0 ds =>
      obtain ⟨e1, he1⟩ := hall 0 x d0 (by omega) (by simp) (by simp)
      simp only [unpackLoop, he1]
      cases i with
      | zero =>
        simp only [List.getElem?_cons_zero, Option.some.injEq] at hs hd
        subst hs; subst hd
        rw [he1] at hstep
        simpa using hstep
      | succ i =>
        simp only [List.getElem?_cons_succ] at hs hd ⊢
        exact ih ds (k - 1)
          (fun i0 s0 d2 h0 hs0 hd0 => hall (i0 + 1) s0 d2 (by omega) (by simpa using hs0)
            (by simpa using hd0))
          i s d d1 (by omega) hs hd hstep

theorem unpackLoop_stop {α : Type} (step : α → Dest → Outcome Dest) :
    ∀ (xs : List α) (ds : List Dest) (k : Nat) (s : α) (d : Dest),
      xs[k]? = some s → ds[k]? = some d → (∀ d1, step s d ≠ Outcome.ok d1) →
      (unpackLoop step xs ds).2 ≠ Status.success ∧
        ∀ i, k ≤ i → (unpackLoop step xs ds).1[i]? = ds[i]? := by
  intro xs
  induction xs with
  | nil => intro ds k s d hs; simp at hs
  | cons x xs ih =>
    intro ds k s d hs hd hno
    cases ds with
    | nil => simp at hd
    | cons d0 ds =>
      simp only [unpackLoop]
      cases hstep : step x d0 with
      | ok d1 =>
        cases k with
        | zero =>
          simp only [List.getElem?_cons_zero, Option.some.injEq] at hs hd
          subst hs; subst hd
          exact absurd hstep (hno d1)
        | succ k =>
          simp only [List.getElem?_cons_succ] at hs hd
          obtain ⟨h1, h2⟩ := ih ds k s d hs hd hno
          refine ⟨h1, ?_⟩
          intro i hi
          cases i with
          | zero => omega
          | succ i =>
            simp only [List.getElem?_cons_succ]
            exact h2 i (by omega)
      | err e => exact ⟨by simp, fun i _ => rfl⟩
      | panic => exact ⟨by simp, fun i _ => rfl⟩

theorem unpackLoop_status {α : Type} (step : α → Dest → Outcome Dest) :
    ∀ (xs : List α) (ds : List Dest) (k : Nat) (s : α) (d : Dest),
      (∀ (i : Nat) s0 d0, i < k → xs[i]? = some s0 → ds[i]? = some d0 →
        ∃ d1, step s0 d0 = Outcome.ok d1) →
      xs[k]? = some s → ds[k]? = some d →
      (∀ e, step s d = Outcome.err e → (unpackLoop step xs ds).2 = Status.err e) ∧
        (step s d = Outcome.panic → (unpackLoop step xs ds).2 = Status.panic) := by
  intro xs
  induction xs with
  | nil => intro ds k s d _ hs; simp at hs
  | cons x xs ih =>
    intro ds k s d hall hs hd
    cases ds with
    | nil => simp at hd
    | cons d0 ds =>
      cases k with
      | zero =>
        simp only [List.getElem?_cons_zero, Option.some.injEq] at hs hd
        subst hs; subst hd
        constructor
        · intro e he; simp [unpackLoop, he]
        · intro he; simp [unpackLoop, he]
      | succ k =>
        obtain ⟨e1, he1⟩ := hall 0 x d0 (by omega) (by simp) (by simp)
        simp only [List.getElem?_cons_succ] at hs hd
        simp only [unpackLoop, he1]
        exact ih ds k s d
          (fun i0 s0 d2 h0 hs0 hd0 => hall (i0 + 1) s0 d2 (by omega) (by simpa using hs0)
            (by simpa using hd0)) hs hd

/-! ## Dispatch and the single binding step -/

theorem GetValues_slice (env : GoEnv) (j : JsonRpc) (xs : List GoValue) (ds : List Dest)
    (hp : j.method.Params = GoValue.slice xs) :
    GetValues env j ds =
      if xs.length ≠ ds.length then
        (ds, Status.err (GoError.invalidSizeSlice xs.length ds.length))
      else unpackLoop (sliceStep env) xs ds := by
  simp [GetValues, SliceUnPack, hp, GoValue.kind, reflectLen, varsKind]

theorem GetValues_map (env : GoEnv) (j : JsonRpc) (kvs : List (String × GoValue))
    (ds : List Dest) (hp : j.method.Params = GoValue.map kvs) :
    GetValues env j ds =
      if ds.length ≠ kvs.length then
        (ds, Status.err (GoError.invalidSizeMap kvs.length ds.length))
      else unpackLoop (mapStep env kvs) (MapKeys kvs) ds := by
  simp [GetValues, MapUnPack, hp, GoValue.kind, reflectLen, varsKind]

theorem assign_eq_coerced (env : GoEnv) (s c : GoValue) :
    assign env s c =
      match coerced env s c with
      | Outcome.ok v => Outcome.ok (narrow v)
      | Outcome.err e => Outcome.err e
      | Outcome.panic => Outcome.panic := by
  cases c with
  | str c0 => simp only [assign, coerced]; cases ValueToString env s <;> simp [narrow]
  | int32 c0 => simp only [assign, coerced]; cases ValueToInt env s <;> simp [narrow]
  | int64 c0 => simp only [assign, coerced]; cases ValueToInt env s <;> simp [narrow]
  | float32 c0 => simp only [assign, coerced]; cases ValueToFloat env s <;> simp [narrow]
  | float64 c0 => simp only [assign, coerced]; cases ValueToFloat env s <;> simp [narrow]
  | null => simp [assign, coerced]
  | bool b => simp [assign, coerced]
  | int n => simp [assign, coerced]
  | slice l => simp [assign, coerced]
  | map l => simp [assign, coerced]
  | nilPtr => simp [assign, coerced]
  | ptr t => simp [assign, coerced]
  | ptrIface t => simp [assign, coerced]

theorem sliceSource_of_not_ptr (s : GoValue) (h : s.kind ≠ Kind.Ptr) :
    sliceSource s = some (RValue.iface s) := by
  cases s <;> simp [sliceSource, RValue.elem, RValue.kind, GoValue.kind] at h ⊢

theorem sliceSource_some (s : GoValue) : ∃ r, sliceSource s = some r := by
  cases s <;> simp [sliceSource, RValue.elem, RValue.kind, GoValue.kind]

theorem presented_some (j : JsonRpc) (s : GoValue) : ∃ r, presented j s = some r := by
  unfold presented
  cases j.method.Params <;> simp [sliceSource_some]

theorem presented_of_not_ptr (j : JsonRpc) (s : GoValue) (h : s.kind ≠ Kind.Ptr) :
    presented j s = some (RValue.iface s) := by
  unfold presented
  cases j.method.Params <;> simp [sliceSource_of_not_ptr s h]

theorem ValueToStringV_iface (env : GoEnv) (s : GoValue) :
    ValueToStringV env (RValue.iface s) = ValueToString env s := by
  cases s <;> simp [ValueToStringV, RValue.elem, ValueToString, GoValue.kind]

theorem ValueToFloatV_iface (env : GoEnv) (s : GoValue) :
    ValueToFloatV env (RValue.iface s) = ValueToFloat env s := by
  cases s <;> simp [ValueToFloatV, RValue.elem, ValueToFloat, GoValue.kind]

theorem ValueToIntV_iface (env : GoEnv) (s : GoValue) :
    ValueToIntV env (RValue.iface s) = ValueToInt env s := by
  simp [ValueToIntV, RValue.toInterface]

theorem assignV_iface (env : GoEnv) (s c : GoValue) :
    assignV env (RValue.iface s) c = assign env s c := by
  cases c <;>
    simp [assignV, assign, ValueToStringV_iface, ValueToFloatV_iface, ValueToIntV_iface]

theorem coercedV_iface (env : GoEnv) (s c : GoValue) :
    coercedV env (RValue.iface s) c = coerced env s c := by
  cases c <;>
    simp [coercedV, coerced, ValueToStringV_iface, ValueToFloatV_iface, ValueToIntV_iface]

theorem assignV_eq_coercedV (env : GoEnv) (src : RValue) (c : GoValue) :
    assignV env src c =
      match coercedV env src c with
      | Outcome.ok v => Outcome.ok (narrow v)
      | Outcome.err e => Outcome.err e
      | Outcome.panic => Outcome.panic := by
  cases c with
  | str c0 => simp only [assignV, coercedV]; cases ValueToStringV env src <;> simp [narrow]
  | int32 c0 => simp only [assignV, coercedV]; cases ValueToIntV env src <;> simp [narrow]
  | int64 c0 => simp only [assignV, coercedV]; cases ValueToIntV env src <;> simp [narrow]
  | float32 c0 => simp only [assignV, coercedV]; cases ValueToFloatV env src <;> simp [narrow]
  | float64 c0 => simp only [assignV, coercedV]; cases ValueToFloatV env src <;> simp [narrow]
  | null => simp [assignV, coercedV]
  | bool b => simp [assignV, coercedV]
  | int n => simp [assignV, coercedV]
  | slice l => simp [assignV, coercedV]
  | map l => simp [assignV, coercedV]
  | nilPtr => simp [assignV, coercedV]
  | ptr t => simp [assignV, coercedV]
  | ptrIface t => simp [assignV, coercedV]

theorem coerced_ok_not_ptr (env : GoEnv) (s c v : GoValue)
    (h : coerced env s c = Outcome.ok v) : s.kind ≠ Kind.Ptr := by
  intro hk
  cases s <;> simp [GoValue.kind] at hk <;>
    cases c <;> simp [coerced, ValueToString, ValueToInt, ValueToFloat] at h

theorem sliceStep_of_coercedV (env : GoEnv) (s : GoValue) (r : RValue) (c : GoValue)
    (hr : sliceSource s = some r) :
    sliceStep env s (Dest.ptr c) =
      match coercedV env r c with
      | Outcome.ok v => Outcome.ok (Dest.ptr (narrow v))
      | Outcome.err e => Outcome.err e
      | Outcome.panic => Outcome.panic := by
  simp only [sliceStep, hr, assignV_eq_coercedV]
  cases coercedV env r c <;> rfl

theorem mapStepOn_of_coerced (env : GoEnv) (s c : GoValue) :
    mapStepOn env s (Dest.ptr c) =
      match coerced env s c with
      | Outcome.ok v => Outcome.ok (Dest.ptr (narrow v))
      | Outcome.err e => Outcome.err e
      | Outcome.panic => Outcome.panic := by
  simp only [mapStepOn, assign_eq_coerced]
  cases coerced env s c <;> rfl

theorem sliceStep_ptr_ok (env : GoEnv) (s c v : GoValue)
    (h : coerced env s c = Outcome.ok v) :
    sliceStep env s (Dest.ptr c) = Outcome.ok (Dest.ptr (narrow v)) := by
  rw [sliceStep_of_coercedV env s _ c
    (sliceSource_of_not_ptr s (coerced_ok_not_ptr env s c v h)), coercedV_iface, h]

theorem coercedV_unknown (env : GoEnv) (r : RValue) (c : GoValue)
    (h : knownKind c = false) :
    coercedV env r c = Outcome.err (GoError.unknownTypeChange (pointeeKind c)) := by
  cases c <;> simp_all [coercedV, knownKind]

theorem mapStep_ptr_ok (env : GoEnv) (kvs : List (String × GoValue)) (k : String)
    (s c v : GoValue) (hk : MapIndex kvs k = some s) (h : coerced env s c = Outcome.ok v) :
    mapStep env kvs k (Dest.ptr c) = Outcome.ok (Dest.ptr (narrow v)) := by
  simp [mapStep, hk, assign_eq_coerced, h]

theorem getElem?_map_ptr (curs : List GoValue) (i : Nat) (d : Dest)
    (h : (curs.map Dest.ptr)[i]? = some d) : ∃ c, curs[i]? = some c ∧ d = Dest.ptr c := by
  rw [List.getElem?_map] at h
  cases hc : curs[i]? with
  | none => simp [hc] at h
  | some c => exact ⟨c, rfl, by simpa [hc] using h.symm⟩

theorem narrow_of_wide (env : GoEnv) (s c v : GoValue)
    (hk : c.kind = Kind.String ∨ c.kind = Kind.Int64 ∨ c.kind = Kind.Float64)
    (h : coerced env s c = Outcome.ok v) : narrow v = v := by
  cases c with
  | str c0 =>
    simp only [coerced] at h
    cases hv : ValueToString env s <;> simp [hv] at h
    subst h; rfl
  | int64 c0 =>
    simp only [coerced] at h
    cases hv : ValueToInt env s <;> simp [hv] at h
    subst h; rfl
  | float64 c0 =>
    simp only [coerced] at h
    cases hv : ValueToFloat env s <;> simp [hv] at h
    subst h; rfl
  | null => simp [GoValue.kind] at hk
  | bool b => simp [GoValue.kind] at hk
  | int n => simp [GoValue.kind] at hk
  | int32 n => simp [GoValue.kind] at hk
  | float32 n => simp [GoValue.kind] at hk
  | slice l => simp [GoValue.kind] at hk
  | map l => simp [GoValue.kind] at hk
  | nilPtr => simp [GoValue.kind] at hk
  | ptr t => simp [GoValue.kind] at hk
  | ptrIface t => simp [GoValue.kind] at hk

/-! ## Positional binding -/

/-- C1 (amended): when params is a sequence of `n` values, the destinations are `n` pointers
to variables, and coercing `params[i]` to the kind of variable `i` succeeds for every
`i`, then `GetValues` returns no error, keeps the number of destinations, and variable
`i` holds the coerced value of `params[i]` converted to the variable's own type
(`narrow`: wrapped to 32 bits in an `int32`, rounded in a `float32`); in a `string`,
`int64` or `float64` variable that is exactly the coerced value. -/
theorem positional_binding (env : GoEnv) (j : JsonRpc) (xs curs : List GoValue)
    (hp : j.method.Params = GoValue.slice xs) (hlen : curs.length = xs.length)
    (hco : ∀ (i : Nat) s c, xs[i]? = some s → curs[i]? = some c →
      ∃ v, coerced env s c = Outcome.ok v) :
    (GetValues env j (curs.map Dest.ptr)).2 = Status.success ∧
    (GetValues env j (curs.map Dest.ptr)).1.length = curs.length ∧
    (∀ (i : Nat) s c v, xs[i]? = some s → curs[i]? = some c →
      coerced env s c = Outcome.ok v →
      (GetValues env j (curs.map Dest.ptr)).1[i]? = some (Dest.ptr (narrow v))) ∧
    (∀ (i : Nat) s c v, xs[i]? = some s → curs[i]? = some c →
      coerced env s c = Outcome.ok v →
      (c.kind = Kind.String ∨ c.kind = Kind.Int64 ∨ c.kind = Kind.Float64) →
      (GetValues env j (curs.map Dest.ptr)).1[i]? = some (Dest.ptr v)) := by
  have hstep : ∀ (i : Nat) s d, xs[i]? = some s → (curs.map Dest.ptr)[i]? = some d →
      ∃ d1, sliceStep env s d = Outcome.ok d1 := by
    intro i s d hs hd
    obtain ⟨c, hc, rfl⟩ := getElem?_map_ptr curs i d hd
    obtain ⟨v, hv⟩ := hco i s c hs hc
    exact ⟨_, sliceStep_ptr_ok env s c v hv⟩
  have hl : xs.length = (curs.map Dest.ptr).length := by simp [hlen]
  have hg : GetValues env j (curs.map Dest.ptr) =
      unpackLoop (sliceStep env) xs (curs.map Dest.ptr) := by
    rw [GetValues_slice env j xs _ hp]; simp [hlen]
  have hbind : ∀ (i : Nat) s c v, xs[i]? = some s → curs[i]? = some c →
      coerced env s c = Outcome.ok v →
      (GetValues env j (curs.map Dest.ptr)).1[i]? = some (Dest.ptr (narrow v)) := by
    intro i s c v hs hc hv
    have hi : i < xs.length := by
      by_contra hcon
      rw [List.getElem?_eq_none (by omega)] at hs
      exact Option.noConfusion hs
    rw [hg]
    exact unpackLoop_written (sliceStep env) xs (curs.map Dest.ptr) xs.length
      (fun i0 s0 d0 _ h1 h2 => hstep i0 s0 d0 h1 h2) i s (Dest.ptr c) _ hi hs
      (by simp [List.getElem?_map, hc]) (sliceStep_ptr_ok env s c v hv)
  refine ⟨?_, ?_, hbind, ?_⟩
  · rw [hg]; exact unpackLoop_success (sliceStep env) xs _ hl hstep
  · rw [hg, unpackLoop_length (sliceStep env) xs _ hl]; simp
  · intro i s c v hs hc hv hk
    have h := hbind i s c v hs hc hv
    rwa [narrow_of_wide env s c v hk hv] at h

/-- C1 witness: the documented call `"params": [42, 23]` with two `int64` variables
binds `(42, 23)`. -/
theorem positional_binding_witness :
    GetValues sampleEnv
        (subtractRequest (GoValue.slice [GoValue.float64 (GoFloat.finite 42),
          GoValue.float64 (GoFloat.finite 23)]))
        [Dest.ptr (GoValue.int64 0), Dest.ptr (GoValue.int64 0)] =
      ([Dest.ptr (GoValue.int64 42), Dest.ptr (GoValue.int64 23)], Status.success) ∧
    (GetValues sampleEnv
        (subtractRequest (GoValue.slice [GoValue.float64 (GoFloat.finite 42),
          GoValue.float64 (GoFloat.finite 23)]))
        ([GoValue.int64 0, GoValue.int64 0].map Dest.ptr)).2 = Status.success :=
  ⟨rfl, (positional_binding sampleEnv
    (subtractRequest (GoValue.slice [GoValue.float64 (GoFloat.finite 42),
      GoValue.float64 (GoFloat.finite 23)]))
    [GoValue.float64 (GoFloat.finite 42), GoValue.float64 (GoFloat.finite 23)]
    [GoValue.int64 0, GoValue.int64 0] rfl rfl
    (by
      intro i s c hs hc
      match i with
      | 0 =>
        simp only [List.getElem?_cons_zero, Option.some.injEq] at hs hc
        subst hs; subst hc; exact ⟨_, rfl⟩
      | 1 =>
        simp only [List.getElem?_cons_succ, List.getElem?_cons_zero, Option.some.injEq] at hs hc
        subst hs; subst hc; exact ⟨_, rfl⟩
      | n + 2 => simp at hs)).1⟩

/-- C1 counterexample: params `[4294967297]` bound to one `int32` variable.  The call
succeeds and `ValueToInt` of the element is 4294967297, but the variable holds 1. -/
theorem positional_binding_int32_counterexample :
    ValueToInt sampleEnv (GoValue.float64 (GoFloat.finite 4294967297)) =
      Outcome.ok 4294967297 ∧
    GetValues sampleEnv
        (subtractRequest (GoValue.slice [GoValue.float64 (GoFloat.finite 4294967297)]))
        [Dest.ptr (GoValue.int32 0)] =
      ([Dest.ptr (GoValue.int32 1)], Status.success) ∧
    (GetValues sampleEnv
        (subtractRequest (GoValue.slice [GoValue.float64 (GoFloat.finite 4294967297)]))
        [Dest.ptr (GoValue.int32 0)]).1[0]? ≠
      some (Dest.ptr (GoValue.int32 4294967297)) :=
  ⟨rfl, rfl, by
    intro h
    have h0 : Dest.ptr (GoValue.int32 1) = Dest.ptr (GoValue.int32 4294967297) :=
      Option.some.inj h
    injection h0 with h1
    injection h1 with h2
    exact absurd h2 (by decide)⟩

/-! ## Count mismatch and unsupported shapes -/

/-- C2: when params is a sequence or a mapping with `n` elements or entries and the
number of destinations differs from `n`, `GetValues` returns the size error of
`SliceUnPack` resp. `MapUnPack` and leaves every destination as it was. -/
theorem count_mismatch (env : GoEnv) (j : JsonRpc) (ds : List Dest) (n : Nat)
    (hshape : (∃ xs, j.method.Params = GoValue.slice xs ∧ xs.length = n) ∨
      (∃ kvs, j.method.Params = GoValue.map kvs ∧ kvs.length = n))
    (hne : n ≠ ds.length) :
    (GetValues env j ds).1 = ds ∧
      ((GetValues env j ds).2 = Status.err (GoError.invalidSizeSlice n ds.length) ∨
        (GetValues env j ds).2 = Status.err (GoError.invalidSizeMap n ds.length)) := by
  rcases hshape with ⟨xs, hp, hn⟩ | ⟨kvs, hp, hn⟩
  · rw [GetValues_slice env j xs ds hp]
    subst hn
    simp [hne]
  · rw [GetValues_map env j kvs ds hp]
    subst hn
    simp [Ne.symm hne]

/-- C2 witness: three positional params against two destinations. -/
theorem count_mismatch_witness :
    (GetValues sampleEnv
        (subtractRequest (GoValue.slice [GoValue.float64 (GoFloat.finite 1),
          GoValue.float64 (GoFloat.finite 2), GoValue.float64 (GoFloat.finite 4)]))
        [Dest.ptr (GoValue.int64 0), Dest.ptr (GoValue.int64 0)]).1 =
      [Dest.ptr (GoValue.int64 0), Dest.ptr (GoValue.int64 0)] ∧
    ((GetValues sampleEnv
        (subtractRequest (GoValue.slice [GoValue.float64 (GoFloat.finite 1),
          GoValue.float64 (GoFloat.finite 2), GoValue.float64 (GoFloat.finite 4)]))
        [Dest.ptr (GoValue.int64 0), Dest.ptr (GoValue.int64 0)]).2 =
        Status.err (GoError.invalidSizeSlice 3 2) ∨
      (GetValues sampleEnv
        (subtractRequest (GoValue.slice [GoValue.float64 (GoFloat.finite 1),
          GoValue.float64 (GoFloat.finite 2), GoValue.float64 (GoFloat.finite 4)]))
        [Dest.ptr (GoValue.int64 0), Dest.ptr (GoValue.int64 0)]).2 =
        Status.err (GoError.invalidSizeMap 3 2)) :=
  count_mismatch sampleEnv _ [Dest.ptr (GoValue.int64 0), Dest.ptr (GoValue.int64 0)] 3
    (Or.inl ⟨_, rfl, rfl⟩) (by decide)

/-- C5: when params is neither a sequence nor a mapping (null or absent, a string,
a number, a boolean), `GetValues` returns the "Unknown Params" error and leaves every
destination as it was, whatever the destinations are. -/
theorem unsupported_shape (env : GoEnv) (j : JsonRpc) (ds : List Dest)
    (hs : j.method.Params.kind ≠ Kind.Slice) (hm : j.method.Params.kind ≠ Kind.Map) :
    GetValues env j ds = (ds, Status.err (GoError.unknownParams j.method.Params.kind)) := by
  unfold GetValues
  cases hp : j.method.Params <;> simp_all [GoValue.kind]

/-- C5 witness: the request `{"jsonrpc": "2.0", "method": "foobar", "params": "bar"}`. -/
theorem unsupported_shape_witness :
    GetValues sampleEnv (subtractRequest (GoValue.str "bar")) [Dest.ptr (GoValue.int64 0)] =
      ([Dest.ptr (GoValue.int64 0)], Status.err (GoError.unknownParams Kind.String)) :=
  unsupported_shape sampleEnv (subtractRequest (GoValue.str "bar"))
    [Dest.ptr (GoValue.int64 0)] (by decide) (by decide)

/-! ## Named binding -/

theorem MapIndex_of_mem (kvs : List (String × GoValue)) (k : String)
    (h : k ∈ MapKeys kvs) : ∃ s, MapIndex kvs k = some s := by
  induction kvs with
  | nil => simp [MapKeys] at h
  | cons kv kvs ih =>
    obtain ⟨k0, v0⟩ := kv
    by_cases hk : k = k0
    · subst hk
      exact ⟨v0, by simp [MapIndex, List.lookup]⟩
    · have hmem : k ∈ MapKeys kvs := by
        simp only [MapKeys, List.map_cons, List.mem_cons] at h
        rcases h with h1 | h1
        · exact absurd h1 hk
        · exact h1
      have hbeq : (k == k0) = false := by simpa using hk
      obtain ⟨s, hs⟩ := ih hmem
      exact ⟨s, by simpa [MapIndex, List.lookup, hbeq] using hs⟩

/-- C3 (amended): when params is a mapping whose entries are enumerated in the order
`k_0 .. k_(n-1)`, the destinations are `n` pointers to variables, and coercing
`mapping[k_i]` to the kind of variable `i` succeeds for every `i`, then `GetValues`
returns no error, keeps the number of destinations, and variable `i` holds the coerced
value of `mapping[k_i]` converted to the variable's own type (`narrow`), exactly the
coerced value in a `string`, `int64` or `float64` variable.  No key name is consulted:
only the position of the key in the enumeration decides the variable. -/
theorem named_binding_by_order (env : GoEnv) (j : JsonRpc)
    (kvs : List (String × GoValue)) (curs : List GoValue)
    (hp : j.method.Params = GoValue.map kvs) (hlen : curs.length = kvs.length)
    (hco : ∀ (i : Nat) k s c, (MapKeys kvs)[i]? = some k → MapIndex kvs k = some s →
      curs[i]? = some c → ∃ v, coerced env s c = Outcome.ok v) :
    (GetValues env j (curs.map Dest.ptr)).2 = Status.success ∧
    (GetValues env j (curs.map Dest.ptr)).1.length = curs.length ∧
    (∀ (i : Nat) k s c v, (MapKeys kvs)[i]? = some k → MapIndex kvs k = some s →
      curs[i]? = some c → coerced env s c = Outcome.ok v →
      (GetValues env j (curs.map Dest.ptr)).1[i]? = some (Dest.ptr (narrow v))) ∧
    (∀ (i : Nat) k s c v, (MapKeys kvs)[i]? = some k → MapIndex kvs k = some s →
      curs[i]? = some c → coerced env s c = Outcome.ok v →
      (c.kind = Kind.String ∨ c.kind = Kind.Int64 ∨ c.kind = Kind.Float64) →
      (GetValues env j (curs.map Dest.ptr)).1[i]? = some (Dest.ptr v)) := by
  have hstep : ∀ (i : Nat) k d, (MapKeys kvs)[i]? = some k →
      (curs.map Dest.ptr)[i]? = some d → ∃ d1, mapStep env kvs k d = Outcome.ok d1 := by
    intro i k d hk hd
    obtain ⟨c, hc, rfl⟩ := getElem?_map_ptr curs i d hd
    obtain ⟨s, hs⟩ := MapIndex_of_mem kvs k (List.mem_iff_getElem?.mpr ⟨i, hk⟩)
    obtain ⟨v, hv⟩ := hco i k s c hk hs hc
    exact ⟨_, mapStep_ptr_ok env kvs k s c v hs hv⟩
  have hl : (MapKeys kvs).length = (curs.map Dest.ptr).length := by simp [MapKeys, hlen]
  have hg : GetValues env j (curs.map Dest.ptr) =
      unpackLoop (mapStep env kvs) (MapKeys kvs) (curs.map Dest.ptr) := by
    rw [GetValues_map env j kvs _ hp]; simp [hlen]
  have hbind : ∀ (i : Nat) k s c v, (MapKeys kvs)[i]? = some k → MapIndex kvs k = some s →
      curs[i]? = some c → coerced env s c = Outcome.ok v →
      (GetValues env j (curs.map Dest.ptr)).1[i]? = some (Dest.ptr (narrow v)) := by
    intro i k s c v hk hs hc hv
    have hi : i < (MapKeys kvs).length := by
      by_contra hcon
      rw [List.getElem?_eq_none (by omega)] at hk
      exact Option.noConfusion hk
    rw [hg]
    exact unpackLoop_written (mapStep env kvs) (MapKeys kvs) (curs.map Dest.ptr)
      (MapKeys kvs).length (fun i0 k0 d0 _ h1 h2 => hstep i0 k0 d0 h1 h2) i k (Dest.ptr c) _ hi
      hk (by simp [List.getElem?_map, hc]) (mapStep_ptr_ok env kvs k s c v hs hv)
  refine ⟨?_, ?_, hbind, ?_⟩
  · rw [hg]; exact unpackLoop_success (mapStep env kvs) (MapKeys kvs) _ hl hstep
  · rw [hg, unpackLoop_length (mapStep env kvs) (MapKeys kvs) _ hl]; simp
  · intro i k s c v hk hs hc hv hkind
    have h := hbind i k s c v hk hs hc hv
    rwa [narrow_of_wide env s c v hkind hv] at h

/-- C3 witness: the mapping `{"name": "myself", "count": "7"}` enumerated as `name`,
`count`, bound to a `string` and an `int64` variable. -/
theorem named_binding_by_order_witness :
    GetValues sampleEnv
        (subtractRequest (GoValue.map [("name", GoValue.str "myself"),
          ("count", GoValue.str "7")]))
        [Dest.ptr (GoValue.str ""), Dest.ptr (GoValue.int64 0)] =
      ([Dest.ptr (GoValue.str "myself"), Dest.ptr (GoValue.int64 7)], Status.success) ∧
    (GetValues sampleEnv
        (subtractRequest (GoValue.map [("name", GoValue.str "myself"),
          ("count", GoValue.str "7")]))
        ([GoValue.str "", GoValue.int64 0].map Dest.ptr)).2 = Status.success :=
  ⟨rfl, (named_binding_by_order sampleEnv
    (subtractRequest (GoValue.map [("name", GoValue.str "myself"),
      ("count", GoValue.str "7")]))
    [("name", GoValue.str "myself"), ("count", GoValue.str "7")]
    [GoValue.str "", GoValue.int64 0] rfl rfl
    (by
      intro i k s c hk hs hc
      match i with
      | 0 =>
        simp only [MapKeys, List.map_cons, List.getElem?_cons_zero, Option.some.injEq] at hk hc
        subst hk; subst hc
        have h1 : s = GoValue.str "myself" := (Option.some.inj hs).symm
        subst h1; exact ⟨_, rfl⟩
      | 1 =>
        simp only [MapKeys, List.map_cons, List.getElem?_cons_succ, List.getElem?_cons_zero,
          Option.some.injEq] at hk hc
        subst hk; subst hc
        have h1 : s = GoValue.str "7" := (Option.some.inj hs).symm
        subst h1; exact ⟨_, rfl⟩
      | n + 2 => simp [MapKeys] at hk)).1⟩

/-- C3 counterexample: the mapping `{"n": 4294967297}` bound to one `int32` variable.
The call succeeds and `ValueToInt` of the entry is 4294967297, but the variable holds 1. -/
theorem named_binding_int32_counterexample :
    MapIndex [("n", GoValue.float64 (GoFloat.finite 4294967297))] "n" =
      some (GoValue.float64 (GoFloat.finite 4294967297)) ∧
    ValueToInt sampleEnv (GoValue.float64 (GoFloat.finite 4294967297)) =
      Outcome.ok 4294967297 ∧
    GetValues sampleEnv
        (subtractRequest (GoValue.map [("n", GoValue.float64 (GoFloat.finite 4294967297))]))
        [Dest.ptr (GoValue.int32 0)] =
      ([Dest.ptr (GoValue.int32 1)], Status.success) ∧
    (GetValues sampleEnv
        (subtractRequest (GoValue.map [("n", GoValue.float64 (GoFloat.finite 4294967297))]))
        [Dest.ptr (GoValue.int32 0)]).1[0]? ≠
      some (Dest.ptr (GoValue.int32 4294967297)) :=
  ⟨rfl, rfl, rfl, by
    intro h
    have h0 : Dest.ptr (GoValue.int32 1) = Dest.ptr (GoValue.int32 4294967297) :=
      Option.some.inj h
    injection h0 with h1
    injection h1 with h2
    exact absurd h2 (by decide)⟩

/-- C4: the two documented named calls carry the same entries, `subtrahend = 23` and
`minuend = 42`.  Bound to the variables `(minuend, subtrahend)`, the enumeration
`minuend, subtrahend` gives `(42, 23)` and the enumeration `subtrahend, minuend`
gives `(23, 42)`, although both mappings answer every key alike: the binding follows
the enumeration order, not the key. -/
theorem named_binding_depends_on_order :
    GetValues sampleEnv
        (subtractRequest (GoValue.map [("minuend", GoValue.float64 (GoFloat.finite 42)),
          ("subtrahend", GoValue.float64 (GoFloat.finite 23))]))
        [Dest.ptr (GoValue.int64 0), Dest.ptr (GoValue.int64 0)] =
      ([Dest.ptr (GoValue.int64 42), Dest.ptr (GoValue.int64 23)], Status.success) ∧
    GetValues sampleEnv
        (subtractRequest (GoValue.map [("subtrahend", GoValue.float64 (GoFloat.finite 23)),
          ("minuend", GoValue.float64 (GoFloat.finite 42))]))
        [Dest.ptr (GoValue.int64 0), Dest.ptr (GoValue.int64 0)] =
      ([Dest.ptr (GoValue.int64 23), Dest.ptr (GoValue.int64 42)], Status.success) ∧
    (∀ k : String,
      MapIndex [("minuend", GoValue.float64 (GoFloat.finite 42)),
          ("subtrahend", GoValue.float64 (GoFloat.finite 23))] k =
        MapIndex [("subtrahend", GoValue.float64 (GoFloat.finite 23)),
          ("minuend", GoValue.float64 (GoFloat.finite 42))] k) := by
  refine ⟨rfl, rfl, ?_⟩
  intro k
  by_cases h1 : k = "minuend"
  · subst h1; rfl
  · by_cases h2 : k = "subtrahend"
    · subst h2; rfl
    · have e1 : (k == "minuend") = false := by simpa using h1
      have e2 : (k == "subtrahend") = false := by simpa using h2
      simp [MapIndex, List.lookup, e1, e2]

/-! ## Fail-fast binding -/

theorem mapStep_eq_on (env : GoEnv) (kvs : List (String × GoValue)) (k : String)
    (s : GoValue) (hk : MapIndex kvs k = some s) (d : Dest) :
    mapStep env kvs k d = mapStepOn env s d := by
  cases d <;> simp [mapStep, mapStepOn, hk]

theorem mapLoop_eq_on (env : GoEnv) (kvs : List (String × GoValue)) :
    ∀ (keys : List String) (srcs : List GoValue) (ds : List Dest),
      keys.map (MapIndex kvs) = srcs.map some →
      unpackLoop (mapStep env kvs) keys ds = unpackLoop (mapStepOn env) srcs ds := by
  intro keys
  induction keys with
  | nil =>
    intro srcs ds h
    cases srcs with
    | nil => simp [unpackLoop]
    | cons s srcs => simp at h
  | cons k keys ih =>
    intro srcs ds h
    cases srcs with
    | nil => simp at h
    | cons s srcs =>
      simp only [List.map_cons, List.cons.injEq] at h
      obtain ⟨hk, hrest⟩ := h
      cases ds with
      | nil => simp [unpackLoop]
      | cons d ds =>
        simp only [unpackLoop, mapStep_eq_on env kvs k s hk d, ih srcs ds hrest]

theorem presented_slice (j : JsonRpc) (xs : List GoValue) (s : GoValue)
    (hp : j.method.Params = GoValue.slice xs) : presented j s = sliceSource s := by
  simp [presented, hp]

theorem presented_map (j : JsonRpc) (kvs : List (String × GoValue)) (s : GoValue)
    (hp : j.method.Params = GoValue.map kvs) : presented j s = some (RValue.iface s) := by
  simp [presented, hp]

theorem GetValues_presented (env : GoEnv) (j : JsonRpc) (srcs curs : List GoValue)
    (hshape : BoundInOrder j srcs) (hlen : curs.length = srcs.length) :
    ∃ step : GoValue → Dest → Outcome Dest,
      GetValues env j (curs.map Dest.ptr) = unpackLoop step srcs (curs.map Dest.ptr) ∧
      ∀ s r c, presented j s = some r →
        step s (Dest.ptr c) =
          match coercedV env r c with
          | Outcome.ok v => Outcome.ok (Dest.ptr (narrow v))
          | Outcome.err e => Outcome.err e
          | Outcome.panic => Outcome.panic := by
  rcases hshape with hp | ⟨kvs, hp, hk⟩
  · refine ⟨sliceStep env, ?_, ?_⟩
    · rw [GetValues_slice env j srcs _ hp]; simp [hlen]
    · intro s r c hr
      rw [presented_slice j srcs s hp] at hr
      exact sliceStep_of_coercedV env s r c hr
  · have hl : kvs.length = srcs.length := by
      have := congrArg List.length hk
      simpa [MapKeys] using this
    refine ⟨mapStepOn env, ?_, ?_⟩
    · rw [GetValues_map env j kvs _ hp, mapLoop_eq_on env kvs _ srcs _ hk]
      simp [hlen, hl]
    · intro s r c hr
      rw [presented_map j kvs s hp] at hr
      have hr2 : r = RValue.iface s := (Option.some.inj hr).symm
      subst hr2
      rw [coercedV_iface]
      exact mapStepOn_of_coerced env s c

theorem unpackLoop_fail_fast {α : Type} (step : α → Dest → Outcome Dest) (xs : List α)
    (curs : List GoValue) (k : Nat) (x : α) (c : GoValue)
    (hpre : ∀ (i : Nat) x0 c0, i < k → xs[i]? = some x0 → curs[i]? = some c0 →
      ∃ d1, step x0 (Dest.ptr c0) = Outcome.ok d1)
    (hx : xs[k]? = some x) (hc : curs[k]? = some c) :
    (∀ e, step x (Dest.ptr c) = Outcome.err e →
      (unpackLoop step xs (curs.map Dest.ptr)).2 = Status.err e) ∧
    (∀ (i : Nat) x0 c0 d1, i < k → xs[i]? = some x0 → curs[i]? = some c0 →
      step x0 (Dest.ptr c0) = Outcome.ok d1 →
      (unpackLoop step xs (curs.map Dest.ptr)).1[i]? = some d1) ∧
    ((∀ d1, step x (Dest.ptr c) ≠ Outcome.ok d1) →
      (unpackLoop step xs (curs.map Dest.ptr)).2 ≠ Status.success ∧
        ∀ (i : Nat), k ≤ i →
          (unpackLoop step xs (curs.map Dest.ptr)).1[i]? = (curs.map Dest.ptr)[i]?) := by
  have hok : ∀ (i : Nat) x0 d0, i < k → xs[i]? = some x0 →
      (curs.map Dest.ptr)[i]? = some d0 → ∃ d1, step x0 d0 = Outcome.ok d1 := by
    intro i x0 d0 hi hx0 hd
    obtain ⟨c0, hc0, rfl⟩ := getElem?_map_ptr curs i d0 hd
    exact hpre i x0 c0 hi hx0 hc0
  have hdk : (curs.map Dest.ptr)[k]? = some (Dest.ptr c) := by
    simp [List.getElem?_map, hc]
  refine ⟨?_, ?_, ?_⟩
  · intro e he
    exact (unpackLoop_status step xs _ k x (Dest.ptr c) hok hx hdk).1 e he
  · intro i x0 c0 d1 hi hx0 hc0 hd1
    exact unpackLoop_written step xs _ k hok i x0 (Dest.ptr c0) d1 hi hx0
      (by simp [List.getElem?_map, hc0]) hd1
  · intro hno
    exact unpackLoop_stop step xs _ k x (Dest.ptr c) hx hdk hno

/-- C7 (amended): for params that are a sequence or a mapping, bound in order to equally
many pointers to variables, of which variable `k` has a kind other than string,
integer or float: `GetValues` does not succeed and every variable from `k` on is as
it was.  When coercing succeeds at every index below `k`, it returns the
"Unknown type" error and the variables below `k` hold their coerced values converted
to the variable's own type: they are written. -/
theorem unknown_kind_stops (env : GoEnv) (j : JsonRpc) (srcs curs : List GoValue)
    (k : Nat) (c : GoValue)
    (hshape : BoundInOrder j srcs) (hlen : curs.length = srcs.length)
    (hc : curs[k]? = some c) (hunk : knownKind c = false) :
    (GetValues env j (curs.map Dest.ptr)).2 ≠ Status.success ∧
    (∀ (i : Nat), k ≤ i →
      (GetValues env j (curs.map Dest.ptr)).1[i]? = (curs.map Dest.ptr)[i]?) ∧
    ((∀ (i : Nat) s0 c0, i < k → srcs[i]? = some s0 → curs[i]? = some c0 →
        ∃ v, coerced env s0 c0 = Outcome.ok v) →
      (GetValues env j (curs.map Dest.ptr)).2 =
          Status.err (GoError.unknownTypeChange (pointeeKind c)) ∧
        ∀ (i : Nat) s0 c0 v, i < k → srcs[i]? = some s0 → curs[i]? = some c0 →
          coerced env s0 c0 = Outcome.ok v →
          (GetValues env j (curs.map Dest.ptr)).1[i]? = some (Dest.ptr (narrow v))) := by
  obtain ⟨step, hg, hstep⟩ := GetValues_presented env j srcs curs hshape hlen
  have hk : k < srcs.length := by
    by_contra hcon
    rw [List.getElem?_eq_none (by omega)] at hc
    exact Option.noConfusion hc
  obtain ⟨s, hs⟩ : ∃ s, srcs[k]? = some s := ⟨srcs[k], List.getElem?_eq_getElem hk⟩
  have hstepk : step s (Dest.ptr c) =
      Outcome.err (GoError.unknownTypeChange (pointeeKind c)) := by
    obtain ⟨r, hr⟩ := presented_some j s
    rw [hstep s r c hr, coercedV_unknown env r c hunk]
  have hF1 : ∀ s0 c0 v, coerced env s0 c0 = Outcome.ok v →
      step s0 (Dest.ptr c0) = Outcome.ok (Dest.ptr (narrow v)) := by
    intro s0 c0 v hv
    rw [hstep s0 _ c0 (presented_of_not_ptr j s0 (coerced_ok_not_ptr env s0 c0 v hv)),
      coercedV_iface, hv]
  rw [hg]
  refine ⟨?_, ?_, ?_⟩
  · exact (unpackLoop_stop step srcs _ k s (Dest.ptr c) hs
      (by simp [List.getElem?_map, hc])
      (by intro d1 h; rw [hstepk] at h; exact Outcome.noConfusion h)).1
  · exact (unpackLoop_stop step srcs _ k s (Dest.ptr c) hs
      (by simp [List.getElem?_map, hc])
      (by intro d1 h; rw [hstepk] at h; exact Outcome.noConfusion h)).2
  · intro hpre
    obtain ⟨h1, h2, _⟩ := unpackLoop_fail_fast step srcs curs k s c
      (by
        intro i s0 c0 hi hs0 hc0
        obtain ⟨v, hv⟩ := hpre i s0 c0 hi hs0 hc0
        exact ⟨_, hF1 s0 c0 v hv⟩)
      hs hc
    refine ⟨h1 _ hstepk, ?_⟩
    intro i s0 c0 v hi hs0 hc0 hv
    exact h2 i s0 c0 _ hi hs0 hc0 (hF1 s0 c0 v hv)

/-- C7 witness: params `[42, 23]` with a `bool` variable first and an `int64` variable
second: nothing is written. -/
theorem unknown_kind_stops_witness :
    GetValues sampleEnv
        (subtractRequest (GoValue.slice [GoValue.float64 (GoFloat.finite 42),
          GoValue.float64 (GoFloat.finite 23)]))
        [Dest.ptr (GoValue.bool false), Dest.ptr (GoValue.int64 0)] =
      ([Dest.ptr (GoValue.bool false), Dest.ptr (GoValue.int64 0)],
        Status.err (GoError.unknownTypeChange Kind.Bool)) ∧
    (GetValues sampleEnv
        (subtractRequest (GoValue.slice [GoValue.float64 (GoFloat.finite 42),
          GoValue.float64 (GoFloat.finite 23)]))
        ([GoValue.bool false, GoValue.int64 0].map Dest.ptr)).2 ≠ Status.success :=
  ⟨rfl, (unknown_kind_stops sampleEnv
    (subtractRequest (GoValue.slice [GoValue.float64 (GoFloat.finite 42),
      GoValue.float64 (GoFloat.finite 23)]))
    [GoValue.float64 (GoFloat.finite 42), GoValue.float64 (GoFloat.finite 23)]
    [GoValue.bool false, GoValue.int64 0] 0 (GoValue.bool false)
    (Or.inl rfl) rfl rfl rfl).1⟩

/-- C7 counterexample: params `[42, 23]` with an `int64` variable first and a `bool`
variable second.  The call returns the "Unknown type" error, and variable 0, which
precedes the variable of unknown kind, has been written: it holds 42, no longer 0. -/
theorem unknown_kind_not_atomic_counterexample :
    GetValues sampleEnv
        (subtractRequest (GoValue.slice [GoValue.float64 (GoFloat.finite 42),
          GoValue.float64 (GoFloat.finite 23)]))
        [Dest.ptr (GoValue.int64 0), Dest.ptr (GoValue.bool false)] =
      ([Dest.ptr (GoValue.int64 42), Dest.ptr (GoValue.bool false)],
        Status.err (GoError.unknownTypeChange Kind.Bool)) ∧
    (GetValues sampleEnv
        (subtractRequest (GoValue.slice [GoValue.float64 (GoFloat.finite 42),
          GoValue.float64 (GoFloat.finite 23)]))
        [Dest.ptr (GoValue.int64 0), Dest.ptr (GoValue.bool false)]).1 ≠
      [Dest.ptr (GoValue.int64 0), Dest.ptr (GoValue.bool false)] :=
  ⟨rfl, by
    intro h
    have h0 : Dest.ptr (GoValue.int64 42) = Dest.ptr (GoValue.int64 0) :=
      (List.cons.inj h).1
    injection h0 with h1
    injection h1 with h2
    exact absurd h2 (by decide)⟩

/-! ## Integer literals -/

theorem decimalValue_cons (c : Char) (cs : List Char) :
    decimalValue (c :: cs) = (c.toNat - '0'.toNat) * 10 ^ cs.length + decimalValue cs := by
  simp [decimalValue, Nat.ofDigits_append, Nat.ofDigits_singleton]
  ring

theorem parseUintLoop_ok_iff (fn s : String) (maxVal : Nat) :
    ∀ (cs : List Char) (acc v : Nat), acc ≤ maxVal →
      (parseUintLoop fn s maxVal cs acc = Outcome.ok v ↔
        (∀ c ∈ cs, IsDecimalDigit c) ∧ v = acc * 10 ^ cs.length + decimalValue cs ∧
          v ≤ maxVal) := by
  intro cs
  induction cs with
  | nil =>
    intro acc v hacc
    simp only [parseUintLoop, Outcome.ok.injEq, List.not_mem_nil, false_implies, implies_true,
      List.length_nil, pow_zero, mul_one, true_and]
    constructor
    · intro h; subst h; exact ⟨by simp [decimalValue], hacc⟩
    · rintro ⟨h, _⟩; simpa [decimalValue] using h.symm
  | cons c cs ih =>
    intro acc v hacc
    simp only [parseUintLoop]
    by_cases hd : '0' ≤ c ∧ c ≤ '9'
    · simp only [hd, and_self, if_true]
      by_cases hov : maxVal < acc * 10 + (c.toNat - '0'.toNat)
      · simp only [hov, if_true]
        constructor
        · intro h; exact Outcome.noConfusion h
        · rintro ⟨_, hv, hle⟩
          rw [decimalValue_cons] at hv
          have h1 : acc * 10 + (c.toNat - '0'.toNat) ≤
              (acc * 10 + (c.toNat - '0'.toNat)) * 10 ^ cs.length :=
            Nat.le_mul_of_pos_right _ (by positivity)
          have h2 : v = (acc * 10 + (c.toNat - '0'.toNat)) * 10 ^ cs.length +
              decimalValue cs := by
            rw [hv, List.length_cons]; ring
          omega
      · simp only [hov, if_false]
        rw [ih _ v (by omega)]
        constructor
        · rintro ⟨hall, hv, hle⟩
          refine ⟨?_, ?_, hle⟩
          · intro c0 hc0
            rcases List.mem_cons.mp hc0 with h | h
            · subst h; exact hd
            · exact hall c0 h
          · rw [hv, decimalValue_cons, List.length_cons]; ring
        · rintro ⟨hall, hv, hle⟩
          refine ⟨fun c0 hc0 => hall c0 (List.mem_cons_of_mem _ hc0), ?_, hle⟩
          rw [hv, decimalValue_cons, List.length_cons]; ring
    · simp only [hd, if_false]
      constructor
      · intro h; exact Outcome.noConfusion h
      · rintro ⟨hall, _⟩
        exact absurd (hall c (List.mem_cons_self _ _)) hd

theorem parseUintLoop_ne_panic (fn s : String) (maxVal : Nat) :
    ∀ (cs : List Char) (acc : Nat), parseUintLoop fn s maxVal cs acc ≠ Outcome.panic := by
  intro cs
  induction cs with
  | nil => intro acc h; exact Outcome.noConfusion h
  | cons c cs ih =>
    intro acc
    simp only [parseUintLoop]
    split
    · split
      · intro h; exact Outcome.noConfusion h
      · exact ih _
    · intro h; exact Outcome.noConfusion h

theorem ParseUint_ok_iff (fn s : String) (cs : List Char) (v : Nat) :
    ParseUint fn s cs = Outcome.ok v ↔
      cs ≠ [] ∧ (∀ c ∈ cs, IsDecimalDigit c) ∧ v = decimalValue cs ∧ v < 2 ^ 64 := by
  cases cs with
  | nil => simp [ParseUint]
  | cons c cs =>
    simp only [ParseUint, intSize]
    rw [parseUintLoop_ok_iff fn s _ (c :: cs) 0 v (Nat.zero_le _)]
    simp only [ne_eq, reduceCtorEq, not_false_eq_true, true_and, zero_mul, zero_add]
    constructor
    · rintro ⟨h1, h2, h3⟩; exact ⟨h1, h2, by omega⟩
    · rintro ⟨h1, h2, h3⟩; exact ⟨h1, h2, by omega⟩

theorem ParseUint_ne_panic (fn s : String) (cs : List Char) :
    ParseUint fn s cs ≠ Outcome.panic := by
  cases cs with
  | nil => intro h; exact Outcome.noConfusion h
  | cons c cs => exact parseUintLoop_ne_panic fn s _ _ _

theorem isIntLiteral_cons (s : String) (c : Char) (cs : List Char) (n : Int)
    (h : s.toList = c :: cs) :
    IsIntLiteral s n ↔
      (if c = '+' ∨ c = '-' then cs else c :: cs) ≠ [] ∧
        (∀ x ∈ (if c = '+' ∨ c = '-' then cs else c :: cs), IsDecimalDigit x) ∧
        n = if c = '-' then -(decimalValue (if c = '+' ∨ c = '-' then cs else c :: cs) : Int)
          else (decimalValue (if c = '+' ∨ c = '-' then cs else c :: cs) : Int) := by
  have hplus : ¬ IsDecimalDigit '+' := by unfold IsDecimalDigit; decide
  have hminus : ¬ IsDecimalDigit '-' := by unfold IsDecimalDigit; decide
  constructor
  · rintro ⟨sign, ds, hs, hsign, hne, hdig, hn⟩
    rw [h] at hs
    rcases hsign with rfl | rfl | rfl
    · simp only [List.nil_append] at hs
      subst hs
      have hc := hdig c (List.mem_cons_self _ _)
      have h1 : c ≠ '+' := fun hc1 => hplus (hc1 ▸ hc)
      have h2 : c ≠ '-' := fun hc1 => hminus (hc1 ▸ hc)
      simp only [h1, h2, or_self, if_false]
      exact ⟨hne, hdig, by simpa using hn⟩
    · simp only [List.singleton_append, List.cons.injEq] at hs
      obtain ⟨rfl, rfl⟩ := hs
      simp only [true_or, if_true]
      exact ⟨hne, hdig, by simpa using hn⟩
    · simp only [List.singleton_append, List.cons.injEq] at hs
      obtain ⟨rfl, rfl⟩ := hs
      simp only [or_true, if_true]
      exact ⟨hne, hdig, by simpa using hn⟩
  · rintro ⟨hne, hdig, hn⟩
    by_cases h1 : c = '+'
    · subst h1
      simp only [true_or, if_true] at hne hdig hn
      exact ⟨['+'], cs, by rw [h]; rfl, Or.inr (Or.inl rfl), hne, hdig, by simpa using hn⟩
    · by_cases h2 : c = '-'
      · subst h2
        simp only [or_true, if_true] at hne hdig hn
        exact ⟨['-'], cs, by rw [h]; rfl, Or.inr (Or.inr rfl), hne, hdig, by simpa using hn⟩
      · simp only [h1, h2, or_self, if_false] at hne hdig hn
        exact ⟨[], c :: cs, by rw [h]; rfl, Or.inl rfl, hne, hdig, by simpa using hn⟩

theorem Atoi_ok_iff (s : String) (n : Int) :
    Atoi s = Outcome.ok n ↔
      IsIntLiteral s n ∧ -(2 : Int) ^ 63 ≤ n ∧ n < (2 : Int) ^ 63 := by
  cases h : s.toList with
  | nil =>
    simp only [Atoi, h]
    constructor
    · intro h0; exact Outcome.noConfusion h0
    · rintro ⟨⟨sign, ds, hs, _, hne, _⟩, _⟩
      rw [h] at hs
      have := List.append_eq_nil.mp hs.symm
      exact absurd this.2 hne
  | cons c cs =>
    rw [isIntLiteral_cons s c cs n h]
    simp only [Atoi, h, intSize]
    generalize hb : (if c = '+' ∨ c = '-' then cs else c :: cs) = body
    cases hP : ParseUint "Atoi" s body with
    | panic => exact absurd hP (ParseUint_ne_panic _ _ _)
    | err e =>
      simp only [reduceCtorEq, false_iff]
      rintro ⟨⟨hne, hdig, hn⟩, hlo, hhi⟩
      have hok : ParseUint "Atoi" s body = Outcome.ok (decimalValue body) := by
        rw [ParseUint_ok_iff]
        refine ⟨hne, hdig, rfl, ?_⟩
        by_cases hc : c = '-'
        · simp only [hc, if_true] at hn; omega
        · simp only [hc, if_false] at hn; omega
      rw [hP] at hok
      exact Outcome.noConfusion hok
    | ok un =>
      obtain ⟨hne, hdig, hun, hlt⟩ := (ParseUint_ok_iff _ _ _ _).mp hP
      subst hun
      have hcut : (2 : Nat) ^ (64 - 1) = 2 ^ 63 := rfl
      simp only [hcut]
      by_cases hc : c = '-'
      · have hneg : decide (c = '-') = true := by simp [hc]
        simp only [hneg, not_true_eq_false, false_and, if_false, true_and, if_true]
        simp only [hc, if_true]
        by_cases hr : 2 ^ 63 < decimalValue body
        · simp only [hr, if_true, reduceCtorEq, false_iff]
          rintro ⟨⟨_, _, hn⟩, hlo, _⟩
          omega
        · simp only [hr, if_false, Outcome.ok.injEq]
          constructor
          · intro hn; subst hn; exact ⟨⟨hne, hdig, rfl⟩, by omega, by omega⟩
          · rintro ⟨⟨_, _, hn⟩, _⟩; exact hn.symm
      · have hneg : decide (c = '-') = false := by simp [hc]
        simp only [hneg, Bool.false_eq_true, not_false_eq_true, true_and, false_and,
          if_false]
        simp only [hc, if_false]
        by_cases hr : 2 ^ 63 ≤ decimalValue body
        · simp only [hr, if_true, reduceCtorEq, false_iff]
          rintro ⟨⟨_, _, hn⟩, _, hhi⟩
          omega
        · simp only [hr, if_false, Outcome.ok.injEq]
          constructor
          · intro hn; subst hn; exact ⟨⟨hne, hdig, rfl⟩, by omega, by omega⟩
          · rintro ⟨⟨_, _, hn⟩, _⟩; exact hn.symm

theorem Atoi_ne_panic (s : String) : Atoi s ≠ Outcome.panic := by
  unfold Atoi
  split
  · intro h; exact Outcome.noConfusion h
  · simp only
    split
    · split
      · intro h; exact Outcome.noConfusion h
      · split
        · intro h; exact Outcome.noConfusion h
        · intro h; exact Outcome.noConfusion h
    · intro h; exact Outcome.noConfusion h
    · rename_i hp; exact absurd hp (ParseUint_ne_panic _ _ _)

/-- C9: `ValueToInt` on a string returns `n` with no error exactly when the string is a
well-formed base-10 integer literal denoting `n` (optional sign, one or more decimal
digits) with `n` in the range of a 64-bit `int`; on every other string it returns an
error, as on the empty string, `abc`, `1.5`, `0x10` and `12` followed by a blank. -/
theorem ValueToInt_string_literal (env : GoEnv) (s : String) :
    (∀ n : Int, ValueToInt env (GoValue.str s) = Outcome.ok n ↔
      IsIntLiteral s n ∧ -(2 : Int) ^ 63 ≤ n ∧ n < (2 : Int) ^ 63) ∧
    ((¬ ∃ n : Int, IsIntLiteral s n ∧ -(2 : Int) ^ 63 ≤ n ∧ n < (2 : Int) ^ 63) →
      ∃ e, ValueToInt env (GoValue.str s) = Outcome.err e) ∧
    (ValueToInt env (GoValue.str "") = Outcome.err (GoError.numSyntax "Atoi" "") ∧
      ValueToInt env (GoValue.str "abc") = Outcome.err (GoError.numSyntax "Atoi" "abc") ∧
      ValueToInt env (GoValue.str "1.5") = Outcome.err (GoError.numSyntax "Atoi" "1.5") ∧
      ValueToInt env (GoValue.str "0x10") = Outcome.err (GoError.numSyntax "Atoi" "0x10") ∧
      ValueToInt env (GoValue.str "12 ") = Outcome.err (GoError.numSyntax "Atoi" "12 ") ∧
      ValueToInt env (GoValue.str "-42") = Outcome.ok (-42) ∧
      ValueToInt env (GoValue.str "9223372036854775808") =
        Outcome.err (GoError.numRange "Atoi" "9223372036854775808")) := by
  have hval : ValueToInt env (GoValue.str s) = Atoi s := by
    simp only [ValueToInt]
    cases Atoi s <;> rfl
  refine ⟨?_, ?_, ⟨rfl, rfl, rfl, rfl, rfl, rfl, rfl⟩⟩
  · intro n
    rw [hval]
    exact Atoi_ok_iff s n
  · intro hno
    rw [hval]
    cases h : Atoi s with
    | ok n => exact absurd ⟨n, (Atoi_ok_iff s n).mp h⟩ hno
    | err e => exact ⟨e, rfl⟩
    | panic => exact absurd h (Atoi_ne_panic s)

/-- C9 witness: the literal `-42`. -/
theorem ValueToInt_string_literal_witness :
    ValueToInt sampleEnv (GoValue.str "-42") = Outcome.ok (-42) ∧
    IsIntLiteral "-42" (-42) :=
  ⟨rfl, (((ValueToInt_string_literal sampleEnv "-42").1 (-42)).mp rfl).1⟩

/-! ## Coercion of integers and of values that are no scalars -/

/-- C8: on an integer source `ValueToString` calls `strconv.FormatInt` with base 64,
which is outside `2..36`, so the call panics for every integer, where base 10 would
give the decimal representation (`"42"` for 42); binding the params `[int64(42)]` to
a `string` variable panics with it.  A string source is returned as it is. -/
theorem ValueToString_integer_panics (env : GoEnv) (n : Int) (s : String) :
    ValueToString env (GoValue.int64 n) = Outcome.panic ∧
    ValueToString env (GoValue.int32 n) = Outcome.panic ∧
    ValueToString env (GoValue.int64 42) = Outcome.panic ∧
    FormatInt 42 10 = Outcome.ok "42" ∧
    GetValues env (SetParams (subtractRequest GoValue.null) (GoValue.slice [GoValue.int64 42]))
        [Dest.ptr (GoValue.str "")] =
      ([Dest.ptr (GoValue.str "")], Status.panic) ∧
    ValueToString env (GoValue.str s) = Outcome.ok s := by
  have h42 : ValueToString env (GoValue.int64 42) = Outcome.panic := by
    simp [ValueToString, FormatInt]
  refine ⟨?_, ?_, h42, ?_, ?_, rfl⟩
  · simp [ValueToString, FormatInt]
  · simp [ValueToString, FormatInt]
  · decide
  · simp [GetValues, SetParams, subtractRequest, SliceUnPack, GoValue.kind, reflectLen,
      varsKind, unpackLoop, sliceStep, sliceSource, RValue.elem, RValue.kind, assignV,
      ValueToStringV, h42]

theorem coercers_nonScalar (env : GoEnv) (v : GoValue) (h : nonScalar v = true) :
    ValueToInt env v = Outcome.err GoError.invalidConvertInt ∧
    ValueToString env v = Outcome.err (GoError.invalidConvertString v.kind) ∧
    ValueToFloat env v = Outcome.err (GoError.invalidConvertFloat v.kind) := by
  cases v <;> simp_all [nonScalar, ValueToInt, ValueToString, ValueToFloat]

theorem nonScalar_not_ptr (s : GoValue) (h : nonScalar s = true) : s.kind ≠ Kind.Ptr := by
  cases s <;> simp_all [nonScalar, GoValue.kind]

theorem sliceStep_nonScalar (env : GoEnv) (s : GoValue) (h : nonScalar s = true)
    (d d1 : Dest) : sliceStep env s d ≠ Outcome.ok d1 := by
  obtain ⟨h1, h2, h3⟩ := coercers_nonScalar env s h
  simp only [sliceStep, sliceSource_of_not_ptr s (nonScalar_not_ptr s h)]
  cases d with
  | nilPtr => simp
  | val v => simp
  | ptr c => cases c <;> simp [assignV_iface, assign, h1, h2, h3]

theorem sliceStep_nonScalar_err (env : GoEnv) (s c : GoValue) (h : nonScalar s = true) :
    ∃ e, sliceStep env s (Dest.ptr c) = Outcome.err e := by
  obtain ⟨h1, h2, h3⟩ := coercers_nonScalar env s h
  simp only [sliceStep, sliceSource_of_not_ptr s (nonScalar_not_ptr s h)]
  cases c <;> simp [assignV_iface, assign, h1, h2, h3]

/-- C10: on a source value that is a boolean, null, a sequence or a mapping, each of
`ValueToInt`, `ValueToString` and `ValueToFloat` returns an error; and `GetValues` on a
params sequence that contains such an element never succeeds, whatever the
destinations.  With pointers to variables as destinations it returns an error as soon
as the coercions before that element succeed. -/
theorem non_scalar_rejected (env : GoEnv) :
    (∀ v : GoValue, nonScalar v = true →
      ValueToInt env v = Outcome.err GoError.invalidConvertInt ∧
      ValueToString env v = Outcome.err (GoError.invalidConvertString v.kind) ∧
      ValueToFloat env v = Outcome.err (GoError.invalidConvertFloat v.kind)) ∧
    (∀ (j : JsonRpc) (xs : List GoValue) (ds : List Dest),
      j.method.Params = GoValue.slice xs → (∃ v ∈ xs, nonScalar v = true) →
      (GetValues env j ds).2 ≠ Status.success) ∧
    (∀ (j : JsonRpc) (xs curs : List GoValue) (k : Nat) (v : GoValue),
      j.method.Params = GoValue.slice xs → curs.length = xs.length →
      xs[k]? = some v → nonScalar v = true →
      (∀ (i : Nat) s0 c0, i < k → xs[i]? = some s0 → curs[i]? = some c0 →
        ∃ w, coerced env s0 c0 = Outcome.ok w) →
      ∃ e, (GetValues env j (curs.map Dest.ptr)).2 = Status.err e) := by
  refine ⟨fun v h => coercers_nonScalar env v h, ?_, ?_⟩
  · intro j xs ds hp ⟨v, hv, hns⟩
    rw [GetValues_slice env j xs ds hp]
    by_cases hlen : xs.length = ds.length
    · simp only [hlen, ne_eq, not_true_eq_false, if_false]
      obtain ⟨k, hk⟩ := List.mem_iff_getElem?.mp hv
      have hklt : k < xs.length := by
        by_contra hcon
        rw [List.getElem?_eq_none (by omega)] at hk
        exact Option.noConfusion hk
      have hd : ds[k]? = some ds[k] := List.getElem?_eq_getElem (by omega)
      exact (unpackLoop_stop (sliceStep env) xs ds k v _ hk hd
        (sliceStep_nonScalar env v hns _)).1
    · simp [hlen]
  · intro j xs curs k v hp hlen hk hns hpre
    have hklt : k < curs.length := by
      by_contra hcon
      rw [List.getElem?_eq_none (by omega)] at hk
      exact Option.noConfusion hk
    have hc : curs[k]? = some curs[k] := List.getElem?_eq_getElem hklt
    obtain ⟨e, he⟩ := sliceStep_nonScalar_err env v curs[k] hns
    refine ⟨e, ?_⟩
    have hg : GetValues env j (curs.map Dest.ptr) =
        unpackLoop (sliceStep env) xs (curs.map Dest.ptr) := by
      rw [GetValues_slice env j xs _ hp]; simp [hlen]
    rw [hg]
    exact (unpackLoop_fail_fast (sliceStep env) xs curs k v curs[k]
      (fun i x0 c0 hi hx0 hc0 => by
        obtain ⟨w, hw⟩ := hpre i x0 c0 hi hx0 hc0
        exact ⟨_, sliceStep_ptr_ok env x0 c0 w hw⟩) hk hc).1 e he

/-- C10 witness: the params sequence `[42, true]` with two `int64` variables. -/
theorem non_scalar_rejected_witness :
    GetValues sampleEnv
        (subtractRequest (GoValue.slice [GoValue.float64 (GoFloat.finite 42),
          GoValue.bool true]))
        [Dest.ptr (GoValue.int64 0), Dest.ptr (GoValue.int64 0)] =
      ([Dest.ptr (GoValue.int64 42), Dest.ptr (GoValue.int64 0)],
        Status.err GoError.invalidConvertInt) ∧
    (GetValues sampleEnv
        (subtractRequest (GoValue.slice [GoValue.float64 (GoFloat.finite 42),
          GoValue.bool true]))
        [Dest.ptr (GoValue.int64 0), Dest.ptr (GoValue.int64 0)]).2 ≠ Status.success :=
  ⟨rfl, (non_scalar_rejected sampleEnv).2.1
    (subtractRequest (GoValue.slice [GoValue.float64 (GoFloat.finite 42),
      GoValue.bool true]))
    [GoValue.float64 (GoFloat.finite 42), GoValue.bool true]
    [Dest.ptr (GoValue.int64 0), Dest.ptr (GoValue.int64 0)] rfl
    ⟨GoValue.bool true, by simp, rfl⟩⟩

/-! ## Envelopes -/

/-- C11: `IsNotify` answers with the presence of the id, not with its absence: it is
`true` exactly when the id is not nil, so `false` for a request without id (a
notification) and `true` for the ids `0` and `""`. -/
theorem IsNotify_iff_id_present (j : JsonRpc) :
    (IsNotify j = true ↔ j.method.Id ≠ GoValue.null) ∧
    IsNotify updateNotification = false ∧
    IsNotify (subtractRequest GoValue.null) = true ∧
    IsNotify (foobarRequest (GoValue.float64 (GoFloat.finite 0))) = true ∧
    IsNotify (foobarRequest (GoValue.str "")) = true := by
  refine ⟨?_, rfl, rfl, rfl, rfl⟩
  unfold IsNotify
  cases h : j.method.Id <;> simp

/-- C12: for a request with id `d`, `NewResult(v)` has id `d` and result `v`, and
`NewError(c, m)` has id `d`, code `c` and message `m`; the envelope of
`JsonRpcErrorBuild(c, m)`, built on a fresh `JsonRpc`, has a nil id (JSON `null`),
code `c` and message `m`, as for the parse error -32700. -/
theorem response_id_and_payload (j : JsonRpc) (v : GoValue) (c : Int) (m : String) :
    (NewResult j v).Id = j.method.Id ∧ (NewResult j v).Result = v ∧
    (NewError j c m).Id = j.method.Id ∧
    (NewError j c m).Error = some { Code := c, Message := m } ∧
    (JsonRpcErrorBuild c m).Id = GoValue.null ∧
    (JsonRpcErrorBuild c m).Error = some { Code := c, Message := m } ∧
    JsonRpcErrorBuild ParseError "Parse error" =
      { Jsonrpc := "2.0", Error := some { Code := -32700, Message := "Parse error" },
        Id := GoValue.null } :=
  ⟨rfl, rfl, rfl, rfl, rfl, rfl, rfl⟩

/-- C13: the envelopes of `NewResult`, `NewError`, `NewNilError` and
`JsonRpcErrorBuild` carry the version `"2.0"`, whatever the request (its own version
field is not read) and whatever the arguments. -/
theorem version_invariant (j : JsonRpc) (v : GoValue) (c : Int) (m : String) :
    (NewResult j v).Jsonrpc = "2.0" ∧ (NewError j c m).Jsonrpc = "2.0" ∧
    (NewNilError j).Jsonrpc = "2.0" ∧ (JsonRpcErrorBuild c m).Jsonrpc = "2.0" :=
  ⟨rfl, rfl, rfl, rfl⟩

/-! ## The 32-bit kinds and the direct entry points -/

/-- C18: of the four kinds the switch of `ValueToInt` accepts, only the 64-bit ones
return: an `int64` yields itself and a `float64` its conversion, while the type
assertions `.(int64)` and `.(float64)` panic on every `int32` and every `float32`. -/
theorem ValueToInt_32bit_panics (env : GoEnv) (n : Int) (x : GoFloat) :
    ValueToInt env (GoValue.int32 n) = Outcome.panic ∧
    ValueToInt env (GoValue.float32 x) = Outcome.panic ∧
    ValueToInt env (GoValue.int64 n) = Outcome.ok n ∧
    ValueToInt env (GoValue.float64 x) = Outcome.ok (floatToInt64 env x) ∧
    ValueToInt env (GoValue.int32 7) = Outcome.panic :=
  ⟨rfl, rfl, rfl, rfl, rfl⟩

/-- C19: the shape guard of `SliceUnPack` and of `MapUnPack` joins its two tests with
`&&`, and the second test (`vars` is no slice) is never true, so neither function ever
returns the "Invalid type wait Slice" error.  Called on params of the wrong shape they
write no destination, but they panic where `Len()` is undefined (nil, booleans,
numbers), and otherwise return the size error, panic in `Index` resp. `MapKeys`, or
even succeed (`SliceUnPack` on an empty mapping without destinations). -/
theorem direct_entry_guard_never_fires (env : GoEnv) (j : JsonRpc) (ds : List Dest) :
    (j.method.Params.kind ≠ Kind.Slice →
      (SliceUnPack env j ds).1 = ds ∧
        ∀ k, (SliceUnPack env j ds).2 ≠ Status.err (GoError.invalidTypeWaitSlice k)) ∧
    (j.method.Params.kind ≠ Kind.Map →
      (MapUnPack env j ds).1 = ds ∧
        ∀ k, (MapUnPack env j ds).2 ≠ Status.err (GoError.invalidTypeWaitSlice k)) ∧
    (reflectLen j.method.Params = none →
      (SliceUnPack env j ds).2 = Status.panic ∧ (MapUnPack env j ds).2 = Status.panic) ∧
    SliceUnPack env (foobarRequest (GoValue.float64 (GoFloat.finite 1)))
        [Dest.ptr (GoValue.int64 0)] =
      ([Dest.ptr (GoValue.int64 0)], Status.panic) ∧
    SliceUnPack env (subtractRequest (GoValue.map [("n", GoValue.str "7")]))
        [Dest.ptr (GoValue.int64 0)] =
      ([Dest.ptr (GoValue.int64 0)], Status.panic) ∧
    SliceUnPack env (subtractRequest (GoValue.map [])) [] = ([], Status.success) ∧
    MapUnPack env (subtractRequest (GoValue.slice [GoValue.str "7"]))
        [Dest.ptr (GoValue.int64 0)] =
      ([Dest.ptr (GoValue.int64 0)], Status.panic) ∧
    MapUnPack env (subtractRequest (GoValue.str "bar")) [Dest.ptr (GoValue.int64 0)] =
      ([Dest.ptr (GoValue.int64 0)], Status.err (GoError.invalidSizeMap 3 1)) := by
  refine ⟨?_, ?_, ?_, rfl, rfl, rfl, rfl, rfl⟩
  · intro hk
    unfold SliceUnPack
    cases hp : j.method.Params <;> simp [hp, GoValue.kind] at hk <;>
      simp [reflectLen, varsKind, GoValue.kind] <;> split_ifs <;> simp
  · intro hk
    unfold MapUnPack
    cases hp : j.method.Params <;> simp [hp, GoValue.kind] at hk <;>
      simp [reflectLen, varsKind, GoValue.kind] <;> split_ifs <;> simp
  · intro hl
    unfold SliceUnPack MapUnPack
    cases hp : j.method.Params <;> simp [hp, reflectLen] at hl <;>
      simp [reflectLen, varsKind, GoValue.kind]

/-! ## Conversions between integers and floats -/

theorem tdiv_eq_truncTowardZero (q : ℚ) :
    Int.tdiv q.num (q.den : Int) = truncTowardZero q := by
  unfold truncTowardZero
  by_cases h : 0 ≤ q
  · rw [if_pos h, Rat.floor_def]
    exact Int.tdiv_eq_ediv (Rat.num_nonneg.mpr h) (Int.ofNat_nonneg _)
  · rw [if_neg h, Rat.floor_def, Rat.neg_num, Rat.neg_den]
    have hn : 0 ≤ -q.num := by
      have : q.num < 0 := Rat.num_neg.mpr (not_le.mp h)
      omega
    rw [← Int.tdiv_eq_ediv hn (Int.ofNat_nonneg _), Int.neg_tdiv, neg_neg]

/-- C16: on a `float64` source `x` that has a mathematical value `q` (any float but an
infinity or NaN; negative zero has the value 0) whose truncation toward zero fits in an
`int64`, `ValueToInt` returns that truncation with no error: the fraction is discarded,
toward zero and not toward minus infinity. -/
theorem ValueToInt_float_truncates (env : GoEnv) (x : GoFloat) (q : ℚ)
    (hx : x.value = some q)
    (hlo : -(2 : Int) ^ 63 ≤ truncTowardZero q) (hhi : truncTowardZero q < (2 : Int) ^ 63) :
    ValueToInt env (GoValue.float64 x) = Outcome.ok (truncTowardZero q) := by
  cases x with
  | finite q0 =>
    have hq : q0 = q := Option.some.inj hx
    subst hq
    simp only [ValueToInt, floatToInt64, tdiv_eq_truncTowardZero]
    rw [if_pos ⟨hlo, hhi⟩]
  | negZero =>
    have hq : (0 : ℚ) = q := Option.some.inj hx
    subst hq
    simp [ValueToInt, floatToInt64, truncTowardZero]
  | inf b => exact Option.noConfusion hx
  | nan => exact Option.noConfusion hx

theorem truncTowardZero_sample :
    truncTowardZero (mkRat 8782019273372467 2251799813685248) = 3 ∧
    truncTowardZero (mkRat (-8782019273372467) 2251799813685248) = -3 ∧
    ⌊mkRat (-8782019273372467) 2251799813685248⌋ = -4 := by
  refine ⟨?_, ?_, ?_⟩
  · rw [← tdiv_eq_truncTowardZero]; rfl
  · rw [← tdiv_eq_truncTowardZero]; rfl
  · rw [Rat.floor_def]; rfl

/-- C16 witness: the `float64` values of the literals `3.9` and `-3.9` are
`±8782019273372467 / 2^51`; `ValueToInt` gives `3` and `-3` (the floor of the latter
is `-4`). -/
theorem ValueToInt_float_truncates_witness :
    ValueToInt sampleEnv
        (GoValue.float64 (GoFloat.finite (mkRat 8782019273372467 2251799813685248))) =
      Outcome.ok 3 ∧
    ValueToInt sampleEnv
        (GoValue.float64 (GoFloat.finite (mkRat (-8782019273372467) 2251799813685248))) =
      Outcome.ok (-3) ∧
    ⌊mkRat (-8782019273372467) 2251799813685248⌋ = -4 := by
  have h := truncTowardZero_sample
  refine ⟨?_, ?_, h.2.2⟩
  · have := ValueToInt_float_truncates sampleEnv
      (GoFloat.finite (mkRat 8782019273372467 2251799813685248))
      (mkRat 8782019273372467 2251799813685248) rfl
      (by rw [h.1]; decide) (by rw [h.1]; decide)
    rwa [h.1] at this
  · have := ValueToInt_float_truncates sampleEnv
      (GoFloat.finite (mkRat (-8782019273372467) 2251799813685248))
      (mkRat (-8782019273372467) 2251799813685248) rfl
      (by rw [h.2.1]; decide) (by rw [h.2.1]; decide)
    rwa [h.2.1] at this

/-! ## MapUnPack against SliceUnPack -/

theorem mapStep_ok_iff_sliceStep_ok (env : GoEnv) (kvs : List (String × GoValue))
    (k : String) (s : GoValue) (hk : MapIndex kvs k = some s) (hnp : s.kind ≠ Kind.Ptr)
    (d d1 : Dest) :
    mapStep env kvs k d = Outcome.ok d1 ↔ sliceStep env s d = Outcome.ok d1 := by
  cases d <;> simp [mapStep, sliceStep, hk, sliceSource_of_not_ptr s hnp, assignV_iface]

theorem mapLoop_lockstep (env : GoEnv) (kvs : List (String × GoValue)) :
    ∀ (keys : List String) (srcs : List GoValue) (ds : List Dest),
      keys.map (MapIndex kvs) = srcs.map some → (∀ s ∈ srcs, s.kind ≠ Kind.Ptr) →
      (unpackLoop (mapStep env kvs) keys ds).1 = (unpackLoop (sliceStep env) srcs ds).1 ∧
        ((unpackLoop (mapStep env kvs) keys ds).2 = Status.success ↔
          (unpackLoop (sliceStep env) srcs ds).2 = Status.success) := by
  intro keys
  induction keys with
  | nil =>
    intro srcs ds h _
    cases srcs with
    | nil => simp [unpackLoop]
    | cons s srcs => simp at h
  | cons k keys ih =>
    intro srcs ds h hnp
    cases srcs with
    | nil => simp at h
    | cons s srcs =>
      simp only [List.map_cons, List.cons.injEq] at h
      obtain ⟨hk, hrest⟩ := h
      cases ds with
      | nil => simp [unpackLoop]
      | cons d ds =>
        have hiff := mapStep_ok_iff_sliceStep_ok env kvs k s hk
          (hnp s (List.mem_cons_self s srcs)) d
        simp only [unpackLoop]
        cases h1 : mapStep env kvs k d with
        | ok d1 =>
          rw [(hiff d1).mp h1]
          obtain ⟨e1, e2⟩ := ih srcs ds hrest
            (fun s0 hs0 => hnp s0 (List.mem_cons_of_mem s hs0))
          exact ⟨by simp [e1], e2⟩
        | err e =>
          cases h2 : sliceStep env s d with
          | ok d1 => rw [(hiff d1).mpr h2] at h1; exact Outcome.noConfusion h1
          | err e2 => simp
          | panic => simp
        | panic =>
          cases h2 : sliceStep env s d with
          | ok d1 => rw [(hiff d1).mpr h2] at h1; exact Outcome.noConfusion h1
          | err e2 => simp
          | panic => simp

theorem mapLoop_eq_sliceLoop (env : GoEnv) (kvs : List (String × GoValue)) :
    ∀ (keys : List String) (srcs curs : List GoValue),
      keys.map (MapIndex kvs) = srcs.map some → (∀ s ∈ srcs, s.kind ≠ Kind.Ptr) →
      unpackLoop (mapStep env kvs) keys (curs.map Dest.ptr) =
        unpackLoop (sliceStep env) srcs (curs.map Dest.ptr) := by
  intro keys
  induction keys with
  | nil =>
    intro srcs curs h _
    cases srcs with
    | nil => simp [unpackLoop]
    | cons s srcs => simp at h
  | cons k keys ih =>
    intro srcs curs h hnp
    cases srcs with
    | nil => simp at h
    | cons s srcs =>
      simp only [List.map_cons, List.cons.injEq] at h
      obtain ⟨hk, hrest⟩ := h
      cases curs with
      | nil => simp [unpackLoop]
      | cons c curs =>
        have hstep : mapStep env kvs k (Dest.ptr c) = sliceStep env s (Dest.ptr c) := by
          simp [mapStep, sliceStep, hk,
            sliceSource_of_not_ptr s (hnp s (List.mem_cons_self s srcs)), assignV_iface]
        simp only [List.map_cons, unpackLoop, hstep,
          ih srcs curs hrest (fun s0 hs0 => hnp s0 (List.mem_cons_of_mem s hs0))]

/-- On a mapping none of whose values is a pointer, enumerated as `k_0 .. k_(n-1)`, and
the sequence `[mapping[k_0], .., mapping[k_(n-1)]]`, `MapUnPack` and `SliceUnPack` leave
the destinations in the same final state and either both succeed or both fail; on
equally many pointers to variables they return the same result altogether. -/
theorem MapUnPack_SliceUnPack_without_pointers (env : GoEnv) (jm js : JsonRpc)
    (kvs : List (String × GoValue)) (srcs : List GoValue) (ds : List Dest)
    (hm : jm.method.Params = GoValue.map kvs) (hs : js.method.Params = GoValue.slice srcs)
    (hsrc : (MapKeys kvs).map (MapIndex kvs) = srcs.map some)
    (hnp : ∀ s ∈ srcs, s.kind ≠ Kind.Ptr) :
    (MapUnPack env jm ds).1 = (SliceUnPack env js ds).1 ∧
    ((MapUnPack env jm ds).2 = Status.success ↔
      (SliceUnPack env js ds).2 = Status.success) ∧
    (∀ curs : List GoValue, ds = curs.map Dest.ptr → curs.length = srcs.length →
      MapUnPack env jm ds = SliceUnPack env js ds) := by
  have hl : kvs.length = srcs.length := by
    have := congrArg List.length hsrc
    simpa [MapKeys] using this
  have hM : MapUnPack env jm ds =
      if ds.length ≠ kvs.length then
        (ds, Status.err (GoError.invalidSizeMap kvs.length ds.length))
      else unpackLoop (mapStep env kvs) (MapKeys kvs) ds := by
    simp [MapUnPack, hm, GoValue.kind, reflectLen, varsKind]
  have hS : SliceUnPack env js ds =
      if srcs.length ≠ ds.length then
        (ds, Status.err (GoError.invalidSizeSlice srcs.length ds.length))
      else unpackLoop (sliceStep env) srcs ds := by
    simp [SliceUnPack, hs, GoValue.kind, reflectLen, varsKind]
  rw [hM, hS]
  by_cases hlen : ds.length = kvs.length
  · have hlen2 : srcs.length = ds.length := by omega
    simp only [hlen, hlen2, ne_eq, not_true_eq_false, if_false]
    obtain ⟨e1, e2⟩ := mapLoop_lockstep env kvs (MapKeys kvs) srcs ds hsrc hnp
    refine ⟨e1, e2, ?_⟩
    intro curs hds _
    subst hds
    exact mapLoop_eq_sliceLoop env kvs (MapKeys kvs) srcs curs hsrc hnp
  · have hlen2 : ¬ srcs.length = ds.length := by omega
    simp only [hlen, hlen2, ne_eq, not_false_eq_true, if_true, reduceCtorEq, true_and]
    intro curs hds hc
    subst hds
    simp only [List.length_map] at hlen
    omega

/-- C20 (defect of `MapUnPack`): a params value that is a pointer to an `int64`
variable holding `n`, bound to an `int64` variable.  `SliceUnPack` on the sequence
`[&n]` dereferences the pointer (lines 189-193), writes `n` and returns nil; `MapUnPack`
on the mapping `{"k": &n}` hands the pointer itself to `ValueToInt`, returns its error
"Invalid convert Value to Int64" and writes nothing.  `GetValues` behaves the same on
the two params. -/
theorem MapUnPack_misses_pointer_source (env : GoEnv) (n cur : Int) :
    SliceUnPack env
        (SetParams (subtractRequest GoValue.null)
          (GoValue.slice [GoValue.ptr (GoValue.int64 n)]))
        [Dest.ptr (GoValue.int64 cur)] =
      ([Dest.ptr (GoValue.int64 n)], Status.success) ∧
    MapUnPack env
        (SetParams (subtractRequest GoValue.null)
          (GoValue.map [("k", GoValue.ptr (GoValue.int64 n))]))
        [Dest.ptr (GoValue.int64 cur)] =
      ([Dest.ptr (GoValue.int64 cur)], Status.err GoError.invalidConvertInt) ∧
    GetValues env
        (SetParams (subtractRequest GoValue.null)
          (GoValue.slice [GoValue.ptr (GoValue.int64 n)]))
        [Dest.ptr (GoValue.int64 cur)] =
      ([Dest.ptr (GoValue.int64 n)], Status.success) ∧
    GetValues env
        (SetParams (subtractRequest GoValue.null)
          (GoValue.map [("k", GoValue.ptr (GoValue.int64 n))]))
        [Dest.ptr (GoValue.int64 cur)] =
      ([Dest.ptr (GoValue.int64 cur)], Status.err GoError.invalidConvertInt) := by
  refine ⟨rfl, rfl, rfl, rfl⟩

theorem bitLen_zero (fuel : Nat) : bitLen fuel 0 = 0 := by
  cases fuel <;> simp [bitLen]

theorem bitLen_bounds : ∀ (fuel n : Nat), n ≤ fuel → 0 < n →
    0 < bitLen fuel n ∧ 2 ^ (bitLen fuel n - 1) ≤ n ∧ n < 2 ^ bitLen fuel n := by
  intro fuel
  induction fuel with
  | zero => intro n h1 h2; omega
  | succ fuel ih =>
    intro n h1 h2
    have hn : n ≠ 0 := by omega
    simp only [bitLen, hn, if_false]
    by_cases h0 : n / 2 = 0
    · have h1' : n = 1 := by omega
      subst h1'
      simp [bitLen_zero]
    · obtain ⟨hb, hlo, hhi⟩ := ih (n / 2) (by omega) (by omega)
      obtain ⟨b, hb'⟩ : ∃ b, bitLen fuel (n / 2) = b + 1 := ⟨bitLen fuel (n / 2) - 1, by omega⟩
      rw [hb'] at hlo hhi ⊢
      simp only [Nat.add_sub_cancel] at hlo ⊢
      have e1 : 2 ^ (b + 1) = 2 * 2 ^ b := by ring
      have e2 : 2 ^ (b + 1 + 1) = 2 * (2 * 2 ^ b) := by ring
      rw [e1] at hhi
      rw [e1, e2]
      refine ⟨by omega, by omega, by omega⟩

theorem dyadic_eq (m e : Int) : dyadic m e = (m : ℚ) * (2 : ℚ) ^ e := by
  unfold dyadic
  by_cases h : 0 ≤ e
  · rw [if_pos h, Rat.mkRat_eq_div]
    obtain ⟨k, rfl⟩ := Int.eq_ofNat_of_zero_le h
    simp
  · rw [if_neg h, Rat.mkRat_eq_div]
    obtain ⟨k, hk⟩ := Int.eq_ofNat_of_zero_le (show 0 ≤ -e by omega)
    have he : e = -(k : Int) := by omega
    subst he
    simp [div_eq_mul_inv]

theorem roundHalfEven_one (n : Nat) : roundHalfEven n 1 = n := by
  simp [roundHalfEven, Nat.mod_one]

theorem floorLog2_one (a : Nat) (ha : 0 < a) :
    floorLog2 a 1 = ((bitLen a a - 1 : Nat) : Int) := by
  obtain ⟨_, hlo, _⟩ := bitLen_bounds a a (Nat.le_refl a) ha
  have h1 : bitLen 1 1 = 1 := by simp [bitLen, bitLen_zero]
  simp only [floorLog2, h1, Nat.sub_self, pow_zero, mul_one, one_mul]
  rw [if_pos hlo]
  simp

theorem round_core (a L : Nat) (ha : 0 < a) (hlo : 2 ^ L ≤ a) (hhi : a ≤ 2 ^ 53) :
    ∃ m : Nat,
      (if (0 : Int) ≤ (L : Int) - 52 then roundHalfEven a (1 * 2 ^ ((L : Int) - 52).toNat)
        else roundHalfEven (a * 2 ^ (-((L : Int) - 52)).toNat) 1) = m ∧
      m ≠ 0 ∧ ((m : Int) : ℚ) * (2 : ℚ) ^ ((L : Int) - 52) = (a : ℚ) := by
  have hL : L ≤ 53 := by
    by_contra hcon
    have : 2 ^ 54 ≤ 2 ^ L := Nat.pow_le_pow_right (by norm_num) (by omega)
    omega
  by_cases h51 : L ≤ 51
  · obtain ⟨k, hk⟩ : ∃ k : Nat, L + k = 52 := ⟨52 - L, by omega⟩
    have he : (L : Int) - 52 = -(k : Int) := by omega
    have hneg : ¬ (0 : Int) ≤ (L : Int) - 52 := by omega
    refine ⟨a * 2 ^ k, ?_, ?_, ?_⟩
    · rw [if_neg hneg, he]
      simp [roundHalfEven_one]
    · positivity
    · rw [he]
      push_cast
      rw [zpow_neg, zpow_natCast]
      field_simp
  · by_cases h52 : L = 52
    · subst h52
      refine ⟨a, ?_, by omega, ?_⟩
      · simp [roundHalfEven_one]
      · simp
    · have h53 : L = 53 := by omega
      subst h53
      have ha53 : a = 2 ^ 53 := by omega
      subst ha53
      refine ⟨2 ^ 52, ?_, by positivity, ?_⟩
      · decide
      · norm_num

theorem intToFloat64_exact (n : Int) (h : n.natAbs ≤ 2 ^ 53) :
    intToFloat64 n = GoFloat.finite (n : ℚ) := by
  unfold intToFloat64 roundToFormat
  by_cases hn : n = 0
  · subst hn; simp
  · have ha : 0 < n.natAbs := Int.natAbs_pos.mpr hn
    obtain ⟨_, hlo, _⟩ := bitLen_bounds n.natAbs n.natAbs (Nat.le_refl _) ha
    obtain ⟨m, hm, hm0, hval⟩ := round_core n.natAbs (bitLen n.natAbs n.natAbs - 1) ha hlo h
    have hL : bitLen n.natAbs n.natAbs - 1 ≤ 53 := by
      by_contra hcon
      have : 2 ^ 54 ≤ 2 ^ (bitLen n.natAbs n.natAbs - 1) :=
        Nat.pow_le_pow_right (by norm_num) (by omega)
      omega
    simp only [Rat.num_intCast, Rat.den_intCast, hn, if_false, floorLog2_one _ ha]
    generalize bitLen n.natAbs n.natAbs - 1 = L at *
    have he : ((L : Int) ⊔ (1 - 1023) - (((53 : Nat) : Int) - 1)) = (L : Int) - 52 := by
      rw [max_eq_left (by omega)]
      norm_num
    rw [he, hm]
    have hov : ¬ ((1023 : Int) + 1 - ((53 : Nat) : Int) < (L : Int) - 52 ∨
        ((L : Int) - 52 = 1023 + 1 - ((53 : Nat) : Int) ∧ 2 ^ 53 ≤ m)) := by
      push_cast
      rintro (h1 | ⟨h1, _⟩) <;> omega
    rw [if_neg hov, if_neg hm0, dyadic_eq]
    congr 1
    by_cases hneg : n < 0
    · have hnabs : n = -((n.natAbs : Int)) := by omega
      have hq : (n : ℚ) = -((n.natAbs : ℚ)) := by
        have := congrArg (fun z : Int => (z : ℚ)) hnabs
        simp only [Int.cast_neg, Int.cast_natCast] at this
        exact this
      simp only [hneg, decide_True, if_true]
      rw [hq, ← hval]
      push_cast
      ring
    · have hnabs : n = ((n.natAbs : Int)) := by omega
      have hq : (n : ℚ) = ((n.natAbs : ℚ)) := by
        have := congrArg (fun z : Int => (z : ℚ)) hnabs
        simp only [Int.cast_natCast] at this
        exact this
      simp only [hneg, decide_False, Bool.false_eq_true, if_false]
      rw [hq, ← hval]


/-- C17 (amended): on an `int64` source `n` with `|n| ≤ 2^53` (and on an `int32` source,
which is within that bound), `ValueToFloat` returns with no error the float whose value
is exactly `n`; on a float source it returns the same float. -/
theorem ValueToFloat_widens_exactly (env : GoEnv) (n : Int) (x : GoFloat)
    (h : n.natAbs ≤ 2 ^ 53) :
    ValueToFloat env (GoValue.int64 n) = Outcome.ok (GoFloat.finite (n : ℚ)) ∧
    ValueToFloat env (GoValue.int32 n) = Outcome.ok (GoFloat.finite (n : ℚ)) ∧
    ValueToFloat env (GoValue.float64 x) = Outcome.ok x ∧
    ValueToFloat env (GoValue.float32 x) = Outcome.ok x := by
  simp [ValueToFloat, intToFloat64_exact n h]

/-- C17 witness: the integer 42. -/
theorem ValueToFloat_widens_exactly_witness :
    ValueToFloat sampleEnv (GoValue.int64 42) = Outcome.ok (GoFloat.finite 42) :=
  (ValueToFloat_widens_exactly sampleEnv 42 GoFloat.nan (by decide)).1

/-- C17 counterexample: the `int64` value `2^53 + 1 = 9007199254740993` is widened to
the float `9007199254740992`, not to a float of its own value. -/
theorem ValueToFloat_rounds_counterexample :
    ValueToFloat sampleEnv (GoValue.int64 9007199254740993) =
      Outcome.ok (GoFloat.finite 9007199254740992) ∧
    ValueToFloat sampleEnv (GoValue.int64 9007199254740993) ≠
      Outcome.ok (GoFloat.finite 9007199254740993) := by
  have h : ValueToFloat sampleEnv (GoValue.int64 9007199254740993) =
      Outcome.ok (GoFloat.finite 9007199254740992) := by decide
  refine ⟨h, ?_⟩
  rw [h]
  decide

/-! ## Error classification -/

theorem parseUintLoop_err (fn s : String) (maxVal : Nat) :
    ∀ (cs : List Char) (acc : Nat) (e : GoError),
      parseUintLoop fn s maxVal cs acc = Outcome.err e →
      e = GoError.numSyntax fn s ∨ e = GoError.numRange fn s := by
  intro cs
  induction cs with
  | nil => intro acc e h; exact Outcome.noConfusion h
  | cons c cs ih =>
    intro acc e h
    simp only [parseUintLoop] at h
    split at h
    · split at h
      · exact Or.inr (Outcome.err.inj h).symm
      · exact ih _ e h
    · exact Or.inl (Outcome.err.inj h).symm

theorem Atoi_err (s : String) (e : GoError) (h : Atoi s = Outcome.err e) :
    e = GoError.numSyntax "Atoi" s ∨ e = GoError.numRange "Atoi" s := by
  unfold Atoi at h
  split at h
  · exact Or.inl (Outcome.err.inj h).symm
  · simp only at h
    split at h
    · split at h
      · exact Or.inr (Outcome.err.inj h).symm
      · split at h
        · exact Or.inr (Outcome.err.inj h).symm
        · exact Outcome.noConfusion h
    · rename_i e0 hp
      have he : e = e0 := (Outcome.err.inj h).symm
      subst he
      unfold ParseUint at hp
      split at hp
      · exact Or.inl (Outcome.err.inj hp).symm
      · exact parseUintLoop_err _ _ _ _ _ _ hp
    · exact Outcome.noConfusion h

theorem ValueToInt_err_kind (env : GoEnv) (s : GoValue) (e0 : GoError)
    (h0 : ValueToInt env s = Outcome.err e0) : e0.isUnknownKind = false := by
  cases s <;> simp [ValueToInt] at h0
  case str t =>
    cases ha : Atoi t with
    | ok n => simp [ha] at h0
    | panic => simp [ha] at h0
    | err e1 =>
      simp [ha] at h0
      subst h0
      rcases Atoi_err t e1 ha with h1 | h1 <;> subst h1 <;> rfl
  all_goals subst h0; rfl

theorem ValueToString_err_kind (env : GoEnv) (s : GoValue) (e0 : GoError)
    (h0 : ValueToString env s = Outcome.err e0) : e0.isUnknownKind = false := by
  cases s <;> simp [ValueToString, FormatInt] at h0
  all_goals subst h0; rfl

theorem ValueToFloat_err_kind (env : GoEnv) (henv : ParseFloatErrors env) (s : GoValue)
    (e0 : GoError) (h0 : ValueToFloat env s = Outcome.err e0) :
    e0.isUnknownKind = false := by
  cases s <;> simp [ValueToFloat] at h0
  case str t =>
    rcases henv t e0 h0 with h1 | h1 <;> subst h1 <;> rfl
  all_goals subst h0; rfl

theorem coercedV_err_of_known (env : GoEnv) (henv : ParseFloatErrors env) (r : RValue)
    (c : GoValue) (e : GoError) (hk : knownKind c = true)
    (h : coercedV env r c = Outcome.err e) : e.isUnknownKind = false := by
  have hint : ∀ e0, ValueToIntV env r = Outcome.err e0 → e0.isUnknownKind = false := by
    intro e0 h0
    cases r with
    | invalid => simp [ValueToIntV, RValue.toInterface] at h0
    | iface v =>
      exact ValueToInt_err_kind env v e0 (by simpa [ValueToIntV, RValue.toInterface] using h0)
    | conc v =>
      exact ValueToInt_err_kind env v e0 (by simpa [ValueToIntV, RValue.toInterface] using h0)
  have hstr : ∀ e0, ValueToStringV env r = Outcome.err e0 → e0.isUnknownKind = false := by
    intro e0 h0
    unfold ValueToStringV at h0
    cases hr : r.elem with
    | none => simp [hr] at h0
    | some x =>
      cases x with
      | invalid => simp [hr] at h0; subst h0; rfl
      | iface v => simp [hr] at h0; subst h0; rfl
      | conc v => simp [hr] at h0; exact ValueToString_err_kind env v e0 h0
  have hflt : ∀ e0, ValueToFloatV env r = Outcome.err e0 → e0.isUnknownKind = false := by
    intro e0 h0
    unfold ValueToFloatV at h0
    cases hr : r.elem with
    | none => simp [hr] at h0
    | some x =>
      cases x with
      | invalid => simp [hr] at h0; subst h0; rfl
      | iface v => simp [hr] at h0; subst h0; rfl
      | conc v => simp [hr] at h0; exact ValueToFloat_err_kind env henv v e0 h0
  cases c <;> simp [knownKind] at hk <;> simp only [coercedV] at h
  case int32 c0 =>
    cases hv : ValueToIntV env r <;> simp [hv] at h
    subst h; exact hint _ hv
  case int64 c0 =>
    cases hv : ValueToIntV env r <;> simp [hv] at h
    subst h; exact hint _ hv
  case float32 c0 =>
    cases hv : ValueToFloatV env r <;> simp [hv] at h
    subst h; exact hflt _ hv
  case float64 c0 =>
    cases hv : ValueToFloatV env r <;> simp [hv] at h
    subst h; exact hflt _ hv
  case str c0 =>
    cases hv : ValueToStringV env r <;> simp [hv] at h
    subst h; exact hstr _ hv

theorem GetValues_default (env : GoEnv) (j : JsonRpc) (ds : List Dest)
    (hs : j.method.Params.kind ≠ Kind.Slice) (hm : j.method.Params.kind ≠ Kind.Map) :
    (GetValues env j ds).2 = Status.err (GoError.unknownParams j.method.Params.kind) := by
  unfold GetValues
  cases hp : j.method.Params <;> simp_all [GoValue.kind]

/-- C14 (amended): a failure that `GetValues` returns is an error value without a code:
none of the constants of the code table is attached to it.  Let the source of an
element be what the binder hands to the coercers (the element itself; in `SliceUnPack`
the variable it points to when it is a pointer).  When the binding in order fails at
index `k` with the error `e`, `GetValues` returns `e`, and `e` is the "Unknown type"
error exactly when variable `k` has a kind other than string, integer or float; a
coercion failure (an error of `ValueToInt`, `ValueToString`, `ValueToFloat`, `Atoi` or
`ParseFloat`) is never that error, so the two classes are told apart by the error
itself. -/
theorem error_classification (env : GoEnv) (henv : ParseFloatErrors env) (j : JsonRpc)
    (srcs curs : List GoValue) (k : Nat) (s : GoValue) (r : RValue) (c : GoValue)
    (e : GoError)
    (hshape : BoundInOrder j srcs) (hlen : curs.length = srcs.length)
    (hpre : ∀ (i : Nat) s0 r0 c0, i < k → srcs[i]? = some s0 → presented j s0 = some r0 →
      curs[i]? = some c0 → ∃ v, coercedV env r0 c0 = Outcome.ok v)
    (hs : srcs[k]? = some s) (hr : presented j s = some r) (hc : curs[k]? = some c)
    (hfail : coercedV env r c = Outcome.err e) :
    (GetValues env j (curs.map Dest.ptr)).2 = Status.err e ∧
    e.code = none ∧
    (e.isUnknownKind = true ↔ knownKind c = false) ∧
    (∀ (j0 : JsonRpc) (ds : List Dest) (e0 : GoError),
      (j0.method.Params.kind ≠ Kind.Slice ∧ j0.method.Params.kind ≠ Kind.Map) ∨
        (∃ xs, j0.method.Params = GoValue.slice xs ∧ xs.length ≠ ds.length) ∨
        (∃ kvs, j0.method.Params = GoValue.map kvs ∧ kvs.length ≠ ds.length) →
      (GetValues env j0 ds).2 = Status.err e0 →
      e0.code = none ∧ e0.isUnknownKind = false) := by
  refine ⟨?_, ?_, ?_, ?_⟩
  · obtain ⟨step, hg, hstep⟩ := GetValues_presented env j srcs curs hshape hlen
    rw [hg]
    exact (unpackLoop_fail_fast step srcs curs k s c
      (fun i x0 c0 hi hx0 hc0 => by
        obtain ⟨r0, hr0⟩ := presented_some j x0
        obtain ⟨v, hv⟩ := hpre i x0 r0 c0 hi hx0 hr0 hc0
        exact ⟨_, by rw [hstep x0 r0 c0 hr0, hv]⟩) hs hc).1 e
      (by rw [hstep s r c hr, hfail])
  · cases e <;> rfl
  · constructor
    · intro hu
      by_contra hcon
      have hk : knownKind c = true := by
        cases hkc : knownKind c
        · exact absurd hkc hcon
        · rfl
      rw [coercedV_err_of_known env henv r c e hk hfail] at hu
      exact Bool.noConfusion hu
    · intro hk
      rw [coercedV_unknown env r c hk] at hfail
      have := (Outcome.err.inj hfail).symm
      subst this
      rfl
  · intro j0 ds e0 hcase he0
    rcases hcase with ⟨h1, h2⟩ | ⟨xs, hp, hne⟩ | ⟨kvs, hp, hne⟩
    · rw [GetValues_default env j0 ds h1 h2] at he0
      have := (Status.err.inj he0).symm
      subst this
      exact ⟨rfl, rfl⟩
    · rw [GetValues_slice env j0 xs ds hp, if_pos hne] at he0
      have := (Status.err.inj he0).symm
      subst this
      exact ⟨rfl, rfl⟩
    · rw [GetValues_map env j0 kvs ds hp, if_pos (Ne.symm hne)] at he0
      have := (Status.err.inj he0).symm
      subst this
      exact ⟨rfl, rfl⟩

/-- C14 witness: params `[42, 23]` with an `int64` and a `bool` variable fail at index 1
with the "Unknown type" error, which carries no code. -/
theorem error_classification_witness :
    GetValues sampleEnv
        (subtractRequest (GoValue.slice [GoValue.float64 (GoFloat.finite 42),
          GoValue.float64 (GoFloat.finite 23)]))
        [Dest.ptr (GoValue.int64 0), Dest.ptr (GoValue.bool false)] =
      ([Dest.ptr (GoValue.int64 42), Dest.ptr (GoValue.bool false)],
        Status.err (GoError.unknownTypeChange Kind.Bool)) ∧
    (GetValues sampleEnv
        (subtractRequest (GoValue.slice [GoValue.float64 (GoFloat.finite 42),
          GoValue.float64 (GoFloat.finite 23)]))
        ([GoValue.int64 0, GoValue.bool false].map Dest.ptr)).2 =
      Status.err (GoError.unknownTypeChange Kind.Bool) :=
  ⟨rfl, (error_classification sampleEnv
    (by
      intro s e h
      exact Or.inl (Outcome.err.inj h).symm)
    (subtractRequest (GoValue.slice [GoValue.float64 (GoFloat.finite 42),
      GoValue.float64 (GoFloat.finite 23)]))
    [GoValue.float64 (GoFloat.finite 42), GoValue.float64 (GoFloat.finite 23)]
    [GoValue.int64 0, GoValue.bool false] 1 (GoValue.float64 (GoFloat.finite 23))
    (RValue.iface (GoValue.float64 (GoFloat.finite 23)))
    (GoValue.bool false) (GoError.unknownTypeChange Kind.Bool) (Or.inl rfl) rfl
    (by
      intro i s0 r0 c0 hi hs0 hr0 hc0
      match i with
      | 0 =>
        simp only [List.getElem?_cons_zero, Option.some.injEq] at hs0 hc0
        subst hs0; subst hc0
        have hr1 : r0 = RValue.iface (GoValue.float64 (GoFloat.finite 42)) :=
          (Option.some.inj hr0).symm
        subst hr1
        exact ⟨_, rfl⟩
      | n + 1 => omega)
    rfl rfl rfl rfl).1⟩

/-- C14 counterexample: the failure for an unsupported params shape (`"params": "bar"`)
does not carry `InvalidParams`, and the failure for a `bool` destination does not carry
`InternalError`: neither error has a code. -/
theorem error_without_code_counterexample :
    GetValues sampleEnv (subtractRequest (GoValue.str "bar")) [Dest.ptr (GoValue.int64 0)] =
      ([Dest.ptr (GoValue.int64 0)], Status.err (GoError.unknownParams Kind.String)) ∧
    (GoError.unknownParams Kind.String).code ≠ some InvalidParams ∧
    GetValues sampleEnv (subtractRequest (GoValue.slice [GoValue.str "bar"]))
        [Dest.ptr (GoValue.bool false)] =
      ([Dest.ptr (GoValue.bool false)], Status.err (GoError.unknownTypeChange Kind.Bool)) ∧
    (GoError.unknownTypeChange Kind.Bool).code ≠ some InternalError :=
  ⟨rfl, by decide, rfl, by decide⟩

/-! ## Decoding a request -/

theorem decodeMember_keeps_error (st : JsonRpcMethod × Option GoError)
    (kv : String × JsonValue) (h : st.2 = some GoError.unmarshalType) :
    (decodeMember st kv).2 = some GoError.unmarshalType := by
  obtain ⟨m, e⟩ := st
  simp only at h
  subst h
  unfold decodeMember
  cases fieldOf kv.1 with
  | none => rfl
  | some f => cases f <;> rfl

theorem decodeMember_bad (st : JsonRpcMethod × Option GoError) (kv : String × JsonValue)
    (h : st.2 = none) (hb : badMember kv = true) :
    (decodeMember st kv).2 = some GoError.unmarshalType := by
  obtain ⟨m, e⟩ := st
  obtain ⟨k, v⟩ := kv
  simp only at h
  subst h
  unfold badMember at hb
  unfold decodeMember
  cases hf : fieldOf k with
  | none => simp [hf] at hb
  | some f =>
    cases f <;> simp [hf] at hb <;>
      (rcases v with v | s
       · cases v <;> simp [stringOrNull] at hb <;> rfl
       · rfl)

theorem decodeMember_error_type (st : JsonRpcMethod × Option GoError)
    (kv : String × JsonValue) (h : st.2 = none) :
    (decodeMember st kv).2 = none ∨ (decodeMember st kv).2 = some GoError.unmarshalType := by
  obtain ⟨m, e⟩ := st
  obtain ⟨k, v⟩ := kv
  simp only at h
  subst h
  unfold decodeMember
  cases fieldOf k with
  | none => exact Or.inl rfl
  | some f =>
    cases f <;>
      (rcases v with v | s
       · cases v <;> simp [storeString, storeInterface]
       · cases s <;> simp [storeString, storeInterface])

theorem decodeMembers_bad (ms : List (String × JsonValue)) :
    ∀ st : JsonRpcMethod × Option GoError,
      (st.2 = none ∧ ms.any badMember = true) ∨ st.2 = some GoError.unmarshalType →
      (ms.foldl decodeMember st).2 = some GoError.unmarshalType := by
  induction ms with
  | nil =>
    intro st h
    rcases h with ⟨_, h⟩ | h
    · simp at h
    · exact h
  | cons kv ms ih =>
    intro st h
    rw [List.foldl_cons]
    apply ih
    rcases h with ⟨h0, h⟩ | h
    · rw [List.any_cons, Bool.or_eq_true] at h
      rcases h with hb | hrest
      · exact Or.inr (decodeMember_bad st kv h0 hb)
      · rcases decodeMember_error_type st kv h0 with h1 | h1
        · exact Or.inl ⟨h1, hrest⟩
        · exact Or.inr h1
    · exact Or.inr (decodeMember_keeps_error st kv h)

theorem Unmarshal_object_bad (m : JsonRpcMethod) (ms : List (String × JsonValue))
    (h : ms.any badMember = true) :
    (Unmarshal m (JsonText.object ms)).2 = some GoError.unmarshalType :=
  decodeMembers_bad ms (m, none) (Or.inl ⟨rfl, h⟩)

/-- The object `{"jsonrpc": "2.0", "method": "m", "params": [1e400]}`: the number does
not fit a `float64`, and the decoder returns its type error. -/
theorem JsonRpcPrase_number_overflow :
    JsonRpcPrase (JsonText.object [("jsonrpc", JsonValue.fits (GoValue.str "2.0")),
        ("method", JsonValue.fits (GoValue.str "m")),
        ("params", JsonValue.overflow (some (GoValue.slice [GoValue.null])))]) =
      Outcome.err GoError.unmarshalType :=
  rfl

/-- C15 (amended): on a well-formed JSON object in which a member addressing the field
`jsonrpc` or `method` has a value that is neither a string nor `null`, `JsonRpcPrase`
and `JsonRpc.Request` return an error, the type error of the decoder, and
`JsonRpcPrase` returns no request. -/
theorem request_schema_not_validated (j : JsonRpc) (ms : List (String × JsonValue))
    (h : ms.any badMember = true) :
    JsonRpcPrase (JsonText.object ms) = Outcome.err GoError.unmarshalType ∧
    (Request j (JsonText.object ms)).2 = Status.err GoError.unmarshalType := by
  constructor
  · unfold JsonRpcPrase
    rw [Unmarshal_object_bad zeroJsonRpc.method ms h]
  · unfold Request
    rw [Unmarshal_object_bad j.method ms h]

/-- C15 witness: the object `{"jsonrpc": "2.0", "method": 1, "params": "bar"}`. -/
theorem request_schema_not_validated_witness :
    JsonRpcPrase (JsonText.object [("jsonrpc", JsonValue.fits (GoValue.str "2.0")),
        ("method", JsonValue.fits (GoValue.float64 (GoFloat.finite 1))),
        ("params", JsonValue.fits (GoValue.str "bar"))]) =
      Outcome.err GoError.unmarshalType :=
  (request_schema_not_validated zeroJsonRpc
    [("jsonrpc", JsonValue.fits (GoValue.str "2.0")),
      ("method", JsonValue.fits (GoValue.float64 (GoFloat.finite 1))),
      ("params", JsonValue.fits (GoValue.str "bar"))] rfl).1

/-- C15 counterexample: the object `{"foo": "boo"}`, which has neither a `jsonrpc` nor a
`method` member, the object `{"jsonrpc": "1.0", "method": "sum"}`, whose version is
not `"2.0"`, and the object `{"jsonrpc": "2.0", "method": null}`, whose method is no
string, are all decoded into a request without an error. -/
theorem request_schema_counterexample :
    JsonRpcPrase (JsonText.object [("foo", JsonValue.fits (GoValue.str "boo"))]) =
      Outcome.ok zeroJsonRpc ∧
    JsonRpcPrase (JsonText.object [("jsonrpc", JsonValue.fits (GoValue.str "1.0")),
        ("method", JsonValue.fits (GoValue.str "sum"))]) =
      Outcome.ok { zeroJsonRpc with method := { zeroJsonRpc.method with
        Jsonrpc := "1.0", Method := "sum" } } ∧
    JsonRpcPrase (JsonText.object [("jsonrpc", JsonValue.fits (GoValue.str "2.0")),
        ("method", JsonValue.fits GoValue.null)]) =
      Outcome.ok { zeroJsonRpc with method := { zeroJsonRpc.method with
        Jsonrpc := "2.0" } } ∧
    (Request zeroJsonRpc (JsonText.object [("foo", JsonValue.fits (GoValue.str "boo"))])).2 =
      Status.success :=
  ⟨rfl, rfl, rfl, rfl⟩

end JsonRpcModel
